import Mathlib

/-!
Verification of the cross-chain MEV correlation engine.

This development embeds the core data model and algorithms of the
repository (candidate selection, swap decoding, windowed tolerant log
matching, cross-chain matching, arbitrage analysis, and transfer-log
chunking) as executable Lean definitions and proves properties about
them.

The Python source compares integer amounts against bounds computed in
IEEE-754 binary64 floating point (`amount * 1.01`, `amount * 0.99`,
`0.1 * transactions_in_block`).  Binary64 arithmetic on nonnegative
values in the normal range is exact rational arithmetic composed with
round-to-nearest-ties-to-even at 53 significant bits, so it is modelled
here exactly: a nonnegative binary64 value is a dyadic rational
`num / 2 ^ exp`, and rounding is performed on exact natural-number
fractions.  The model has an unbounded exponent range, so it covers
neither overflow (a Python `int` of about `2 ^ 1024` or more raises
`OverflowError` when multiplied by a float) nor subnormals; theorems
about the float comparisons carry an explicit range hypothesis where
that matters.  All external collaborators (RPC log fetching, the token
registry, timestamp-to-block lookup, token metadata) are modelled as
explicit environment records, matching the specification's
external-interface boundary.
-/

/-- Round-half-to-even of the fraction N / D to a natural number
(D must be positive for the intended reading). -/
def roundHalfEven (N D : ℕ) : ℕ :=
  let q := N / D
  let r := N % D
  if 2 * r < D then q
  else if D < 2 * r then q + 1
  else if q % 2 = 0 then q else q + 1

/-- Fuel-driven floor of log base 2; `log2Fuel f n` is exact when `n ≤ f`. -/
def log2Fuel : ℕ → ℕ → ℕ
  | 0, _ => 0
  | f + 1, n => if n < 2 then 0 else log2Fuel f (n / 2) + 1

/-- Floor of log base 2 on positive naturals, total and kernel-computable. -/
def natLog2 (n : ℕ) : ℕ := log2Fuel n n

/-- Fuel-driven ceiling of log base 2; `clog2Fuel f c` is exact when `c ≤ f`. -/
def clog2Fuel : ℕ → ℕ → ℕ
  | 0, _ => 0
  | f + 1, c => if c ≤ 1 then 0 else clog2Fuel f ((c + 1) / 2) + 1

/-- Ceiling of log base 2 on naturals, total and kernel-computable. -/
def natClog2 (c : ℕ) : ℕ := clog2Fuel c c

/-- A nonnegative dyadic rational `num / 2 ^ exp`; the exact value of a
nonnegative binary64 floating-point number. -/
structure Dyadic where
  num : ℕ
  exp : ℕ
deriving DecidableEq, Repr

/-- The exact rational value denoted by a `Dyadic`. -/
def Dyadic.val (x : Dyadic) : ℚ := (x.num : ℚ) / 2 ^ x.exp

/-- Round the fraction `N / D` (`D > 0`) to the nearest IEEE-754
binary64 value (53 significant bits, ties to even), returned as the
exact dyadic rational it denotes.  `N = 0` maps to 0; the exponent
range is unbounded, so overflow and subnormals are outside the model. -/
def flRoundND (N D : ℕ) : Dyadic :=
  if N = 0 then ⟨0, 0⟩
  else if D ≤ N then
    let e := natLog2 (N / D)
    if e ≤ 52 then ⟨roundHalfEven (N * 2 ^ (52 - e)) D, 52 - e⟩
    else ⟨roundHalfEven N (D * 2 ^ (e - 52)) * 2 ^ (e - 52), 0⟩
  else
    let k := natClog2 ((D + N - 1) / N)
    ⟨roundHalfEven (N * 2 ^ (52 + k)) D, 52 + k⟩

/-- The binary64 value denoted by the Python literal `1.01`. -/
def float101 : Dyadic := flRoundND 101 100

/-- The binary64 value denoted by the Python literal `0.99`. -/
def float99 : Dyadic := flRoundND 99 100

/-- The binary64 value denoted by the Python literal `0.1`. -/
def float01 : Dyadic := flRoundND 1 10

/-- The exact value of the Python expression `n * c` where `n` is a
nonnegative int and `c` a float: `n` is first converted to binary64,
then the exact product is rounded once more. -/
def pyMulFloat (n : ℕ) (c : Dyadic) : Dyadic :=
  let x := flRoundND n 1
  flRoundND (x.num * c.num) (2 ^ (x.exp + c.exp))

/-- The tolerance filter of `CrossChainMatch.__match_polygon_transactions`:
`value <= amount * 1.01 and value >= amount * 0.99`, with both bounds
computed in binary64 and the int-float comparisons exact. -/
def toleranceKeep (amount value : ℕ) : Bool :=
  let up := pyMulFloat amount float101
  let lo := pyMulFloat amount float99
  decide (value * 2 ^ up.exp ≤ up.num) && decide (lo.num ≤ value * 2 ^ lo.exp)

/-- The comparison `transaction_index < 0.1 * transactions_in_block` of
`CrossChainMev.__is_transaction_non_atomic_mev`, with the threshold
computed in binary64 and the int-float comparison exact. -/
def pyTenPercentLt (i n : ℕ) : Bool :=
  let t := pyMulFloat n float01
  decide (i * 2 ^ t.exp < t.num)

/-! ## Domain model (src/domain.py) -/

/-- Enumeration of MEV types (`MevType`). -/
inductive MevType where
  | NONE
  | SANDWICH
  | BACKRUN
  | LIQUID
  | ARB
  | FRONTRUN
  | SWAP
deriving DecidableEq, Repr

/-- Enumeration of Polygon bridge interaction types
(`PolygonBridgeInteraction`). -/
inductive PolygonBridgeInteraction where
  | NONE
  | FROM_ETHEREUM
  | TO_ETHEREUM
deriving DecidableEq, Repr

/-- The transaction model (`Transaction`). -/
structure Transaction where
  block_number : ℕ
  transaction_hash : String
  transaction_index : ℕ
  mev_type : MevType
  polygon_bridge_interaction : PolygonBridgeInteraction
  coinbase_transfer_value : ℕ
deriving DecidableEq, Repr

/-- Information about one decoded swap (`Swap`). -/
structure Swap where
  token_in : String
  token_out : String
  amount_in : ℤ
  amount_out : ℤ
  event_index : ℕ
deriving DecidableEq, Repr

/-- The Ethereum leg of a cross-chain MEV extraction (`EthereumLeg`).
`swaps` is the result of the swap processor, which returns `None`
(modelled as `none`) when the transaction contains no swap event. -/
structure EthereumLeg where
  token_address : String
  transaction_hash : String
  searcher_eoa_address : String
  searcher_contract_address : String
  swaps : Option (List Swap)
  gas_paid : Option ℤ
deriving DecidableEq, Repr

/-- The Polygon leg of a cross-chain MEV extraction (`PolygonLeg`). -/
structure PolygonLeg where
  token_address : String
  bridge_transaction_hash : String
  swap_transaction_hash : String
  searcher_eoa_address : String
  searcher_contract_address : String
  swaps : Option (List Swap)
  bridge_transaction_gas_paid : Option ℤ
  swap_transaction_gas_paid : Option ℤ
deriving DecidableEq, Repr

/-- Cross-chain MEV extraction information (`CrossChainMevExtraction`). -/
structure CrossChainMevExtraction where
  ethereum_leg : EthereumLeg
  polygon_leg : PolygonLeg
  direction : PolygonBridgeInteraction
  amount_bridged : ℕ
  is_cyclic_arbitrage : Bool
  profit_amount : Option String
  profit_token_symbol : Option String
deriving DecidableEq, Repr

/-- Failed cross-chain MEV extraction information
(`CrossChainMevFailedExtraction`). -/
structure CrossChainMevFailedExtraction where
  ethereum_leg : EthereumLeg
  bridge_from_ethereum_transaction_hash : String
  bridge_to_ethereum_transaction_hash : String
  direction : PolygonBridgeInteraction
  amount_bridged : ℕ
deriving DecidableEq, Repr

/-- The zero address (`web3.constants.ADDRESS_ZERO`). -/
def ADDRESS_ZERO : String := "0x0000000000000000000000000000000000000000"

/-- A decoded ERC-20 `Transfer` event log as consumed by the matcher:
`args.from`, `args.to`, `args.value`, plus transaction hash, block
number and log index. -/
structure TransferLog where
  from_address : String
  to_address : String
  value : ℕ
  transaction_hash : String
  block_number : ℤ
  log_index : ℕ
deriving DecidableEq, Repr, Inhabited

/-- The exceptions that can abort the matching of a single candidate:
`MatchedLogsError` (carrying all surviving candidate logs),
`SwapProcessorError` (carrying the transaction hash),
`EthereumServiceError`, `PolygonBridgeInteractorError`, and any other
unexpected exception. -/
inductive MatchErr where
  | matchedLogs (matched_logs : List TransferLog)
  | swapProcessor (transaction_hash : String)
  | ethereumService
  | polygonBridgeInteractor
  | other
deriving DecidableEq, Repr

/-! ## Swap processing (src/blockchains/swap.py) -/

/-- A decoded Uniswap-V2 `Swap` event log (the fields used by
`SwapProcessor.__process_v2_swap`). -/
structure V2SwapLog where
  address : String
  amount0In : ℕ
  amount1In : ℕ
  amount0Out : ℕ
  amount1Out : ℕ
  log_index : ℕ
deriving DecidableEq, Repr

/-- A decoded Uniswap-V3 `Swap` event log (the fields used by
`SwapProcessor.__process_v3_swap`; the amounts are signed). -/
structure V3SwapLog where
  address : String
  amount0 : ℤ
  amount1 : ℤ
  log_index : ℕ
deriving DecidableEq, Repr

/-- The chain-data a `SwapProcessor` instance consumes: the decoded V2
and V3 swap events of each transaction's receipt, and the `token0` /
`token1` pool lookups keyed by pool address. -/
structure SwapEnv where
  v2Logs : String → List V2SwapLog
  v3Logs : String → List V3SwapLog
  token0 : String → String
  token1 : String → String

/-- `SwapProcessor.__process_v2_swap`. -/
def processV2Swap (env : SwapEnv) (log : V2SwapLog) : Swap :=
  if log.amount0In = 0 then
    ⟨env.token1 log.address, env.token0 log.address,
     (log.amount1In : ℤ), (log.amount0Out : ℤ), log.log_index⟩
  else
    ⟨env.token0 log.address, env.token1 log.address,
     (log.amount0In : ℤ), (log.amount1Out : ℤ), log.log_index⟩

/-- `SwapProcessor.__process_v3_swap`. -/
def processV3Swap (env : SwapEnv) (log : V3SwapLog) : Swap :=
  if log.amount0 < 0 then
    ⟨env.token1 log.address, env.token0 log.address,
     log.amount1, -log.amount0, log.log_index⟩
  else
    ⟨env.token0 log.address, env.token1 log.address,
     log.amount0, -log.amount1, log.log_index⟩

/-- The comparison `swap.event_index ≤ swap.event_index` used as the
sort key in `SwapProcessor.process_transaction`. -/
def swapEventIndexLe (a b : Swap) : Prop := a.event_index ≤ b.event_index

instance : DecidableRel swapEventIndexLe := fun a b =>
  inferInstanceAs (Decidable (a.event_index ≤ b.event_index))

instance : IsTotal Swap swapEventIndexLe :=
  ⟨fun a b => Nat.le_total a.event_index b.event_index⟩

instance : IsTrans Swap swapEventIndexLe :=
  ⟨fun _ _ _ => Nat.le_trans⟩

/-- The adjacent-pair token-chain check of
`SwapProcessor.process_transaction`: `true` when some adjacent pair
`i, i+1` has `swap[i].token_out != swap[i+1].token_in`. -/
def chainBroken : List Swap → Bool
  | a :: b :: rest => decide (a.token_out ≠ b.token_in) || chainBroken (b :: rest)
  | _ => false

/-- `SwapProcessor.process_transaction`: decode all V2 and V3 swap
events, return `none` if there are none, otherwise sort them by log
position; if more than one swap is present and the token chain is
broken, raise `SwapProcessorError` carrying the transaction hash
(Python sorts in place and raises inside the validation loop). -/
def swapProcessTransaction (env : SwapEnv) (transaction_hash : String) :
    Except MatchErr (Option (List Swap)) :=
  let allSwaps := (env.v2Logs transaction_hash).map (processV2Swap env) ++
    (env.v3Logs transaction_hash).map (processV3Swap env)
  if allSwaps.length = 0 then Except.ok none
  else
    let sorted := List.insertionSort swapEventIndexLe allSwaps
    if 1 < sorted.length ∧ chainBroken sorted = true then
      Except.error (MatchErr.swapProcessor transaction_hash)
    else Except.ok (some sorted)

/-- Python truthiness of the optional swap list in
`CrossChainMatch.__find_to_ethereum_mev_transactions` (`if swap:`):
`None` and the empty list are falsy. -/
def swapTruthy : Option (List Swap) → Bool
  | none => false
  | some l => !l.isEmpty

/-! ## Cross-chain matching (src/analysis/cross_chain_match.py) -/

/-- `_NUMBER_OF_BLOCKS_IN_5_HOURS = int(18000 / 3)`. -/
def NUMBER_OF_BLOCKS_IN_5_HOURS : ℤ := 6000

/-- `_NUMBER_OF_BLOCKS_IN_1_HOUR = int(3600 / 3)`. -/
def NUMBER_OF_BLOCKS_IN_1_HOUR : ℤ := 1200

/-- The log field selected by `direction` in
`CrossChainMatch.__match_polygon_transactions`
(`'from'` for `FROM_ETHEREUM`, `'to'` otherwise). -/
def directionField (interaction : PolygonBridgeInteraction)
    (log : TransferLog) : String :=
  if interaction = PolygonBridgeInteraction.FROM_ETHEREUM then log.from_address
  else log.to_address

/-- The log field selected by `reverse_direction` in
`CrossChainMatch.__match_polygon_transactions`
(`'to'` for `FROM_ETHEREUM`, `'from'` otherwise). -/
def reverseDirectionField (interaction : PolygonBridgeInteraction)
    (log : TransferLog) : String :=
  if interaction = PolygonBridgeInteraction.FROM_ETHEREUM then log.to_address
  else log.from_address

/-- The per-log filter of `CrossChainMatch.__match_polygon_transactions`:
the value must be within the binary64-computed tolerance band, and then
for a bridge transaction the direction side must be the zero address and
the reverse side the known counterparty; for a plain transfer the
direction side must be the counterparty and the reverse side must not be
the zero address. -/
def transferLogPasses (amount : ℕ) (is_bridge_transaction : Bool)
    (interaction : PolygonBridgeInteraction) (sender_or_receiver : String)
    (log : TransferLog) : Bool :=
  toleranceKeep amount log.value &&
    (if is_bridge_transaction then
      decide (directionField interaction log = ADDRESS_ZERO) &&
        decide (reverseDirectionField interaction log = sender_or_receiver)
    else
      decide (directionField interaction log = sender_or_receiver) &&
        decide (reverseDirectionField interaction log ≠ ADDRESS_ZERO))

/-- `CrossChainMatch.__match_polygon_transactions`, applied to the
transfer logs fetched for the window: keep the logs passing the filter;
if their number differs from 1 raise `MatchedLogsError` carrying all of
them, otherwise return the single survivor. -/
def matchPolygonTransactions (transfer_logs : List TransferLog) (amount : ℕ)
    (is_bridge_transaction : Bool) (interaction : PolygonBridgeInteraction)
    (sender_or_receiver : String) : Except MatchErr TransferLog :=
  let matched_logs := transfer_logs.filter
    (transferLogPasses amount is_bridge_transaction interaction
      sender_or_receiver)
  if matched_logs.length ≠ 1 then
    Except.error (MatchErr.matchedLogs matched_logs)
  else Except.ok matched_logs.headI

/-- The internal `CrossChainMatch.__FindMatchResponse` dataclass. -/
structure FindMatchResponse where
  is_arbitrage : Bool
  bridge_transaction_hash : String
  swap_transaction_hash : Option String
  swap : Option (List Swap)
  second_bridge_transaction_hash : Option String
deriving DecidableEq, Repr

/-- The external collaborators used by `CrossChainMatch`: the Polygon
transfer-log fetcher, the receipt data feeding both swap processors,
transaction party lookups (which retry forever and so always return),
the bridge-operation log decoders (which can raise
`EthereumServiceError`), the token-registry lookup (which can raise
`PolygonBridgeInteractorError`), the timestamp-to-block service, and
the block-timestamp store. -/
structure MatchEnv where
  getTransferLogs : ℤ → ℤ → String → List TransferLog
  polygonSwapEnv : SwapEnv
  ethereumSwapEnv : SwapEnv
  getEthereumTransactionFromAndTo : String → String × String
  getPolygonTransactionFromAndTo : String → String × String
  getFromEthereumBridgeOperationInformation :
    String → Except MatchErr (String × String × ℕ)
  getToEthereumBridgeOperationInformation :
    String → Except MatchErr (String × String × ℕ)
  getPolygonMappedToken : String → Except MatchErr String
  findPolygonBlockAfterTimestamp : ℕ → ℤ
  findPolygonBlockBeforeTimestamp : ℕ → ℤ
  getBlockTimestamp : ℕ → ℕ

/-- `CrossChainMatch.__find_from_ethereum_mev_transactions`: find the
bridge-mint log in `[anchor, anchor + 1h]`; then try the post-bridge
swap search in `[mintBlock, mintBlock + 1h]` followed by swap decoding,
catching only `MatchedLogsError`; on that error fall back to the
bridge-back search in the same window. -/
def findFromEthereumMevTransactions (env : MatchEnv)
    (polygon_block_number : ℤ) (polygon_token : String) (receiver : String)
    (amount : ℕ) : Except MatchErr FindMatchResponse := do
  let bridge_transaction_log ← matchPolygonTransactions
    (env.getTransferLogs polygon_block_number
      (polygon_block_number + NUMBER_OF_BLOCKS_IN_1_HOUR) polygon_token)
    amount true PolygonBridgeInteraction.FROM_ETHEREUM receiver
  let bridge_transaction_hash := bridge_transaction_log.transaction_hash
  let bridge_transaction_block_number := bridge_transaction_log.block_number
  match (do
      let swap_transaction_log ← matchPolygonTransactions
        (env.getTransferLogs bridge_transaction_block_number
          (bridge_transaction_block_number + NUMBER_OF_BLOCKS_IN_1_HOUR)
          polygon_token)
        amount false PolygonBridgeInteraction.FROM_ETHEREUM receiver
      let swap_transaction_hash := swap_transaction_log.transaction_hash
      let swap ← swapProcessTransaction env.polygonSwapEnv
        swap_transaction_hash
      Except.ok (swap_transaction_hash, swap) :
        Except MatchErr (String × Option (List Swap))) with
  | Except.ok (swap_transaction_hash, swap) =>
    Except.ok ⟨true, bridge_transaction_hash, some swap_transaction_hash,
      swap, none⟩
  | Except.error (MatchErr.matchedLogs _) => do
    let bridge_back_transaction_log ← matchPolygonTransactions
      (env.getTransferLogs bridge_transaction_block_number
        (bridge_transaction_block_number + NUMBER_OF_BLOCKS_IN_1_HOUR)
        polygon_token)
      amount true PolygonBridgeInteraction.TO_ETHEREUM receiver
    Except.ok ⟨false, bridge_transaction_hash, none, none,
      some bridge_back_transaction_log.transaction_hash⟩
  | Except.error e => Except.error e

/-- `CrossChainMatch.__find_to_ethereum_mev_transactions`: find the
bridge-burn log in `[anchor - 5h, anchor]`; if the burn transaction
itself contains a swap (Python truthiness) succeed immediately,
otherwise search `[burnBlock - 1h, burnBlock]` for the preceding plain
transfer and decode its swaps, catching only `MatchedLogsError`, in
which case fall back to the bridge-back search in the same window. -/
def findToEthereumMevTransactions (env : MatchEnv)
    (polygon_block_number : ℤ) (polygon_token : String) (sender : String)
    (amount : ℕ) : Except MatchErr FindMatchResponse := do
  let bridge_transaction_log ← matchPolygonTransactions
    (env.getTransferLogs (polygon_block_number - NUMBER_OF_BLOCKS_IN_5_HOURS)
      polygon_block_number polygon_token)
    amount true PolygonBridgeInteraction.TO_ETHEREUM sender
  let bridge_transaction_hash := bridge_transaction_log.transaction_hash
  let bridge_transaction_block_number := bridge_transaction_log.block_number
  let swap ← swapProcessTransaction env.polygonSwapEnv
    bridge_transaction_hash
  if swapTruthy swap then
    Except.ok ⟨true, bridge_transaction_hash, some bridge_transaction_hash,
      swap, none⟩
  else
    match (do
        let swap_transaction_log ← matchPolygonTransactions
          (env.getTransferLogs
            (bridge_transaction_block_number - NUMBER_OF_BLOCKS_IN_1_HOUR)
            bridge_transaction_block_number polygon_token)
          amount false PolygonBridgeInteraction.TO_ETHEREUM sender
        let swap_transaction_hash := swap_transaction_log.transaction_hash
        let swap ← swapProcessTransaction env.polygonSwapEnv
          swap_transaction_hash
        Except.ok (swap_transaction_hash, swap) :
          Except MatchErr (String × Option (List Swap))) with
    | Except.ok (swap_transaction_hash, swap) =>
      Except.ok ⟨true, bridge_transaction_hash, some swap_transaction_hash,
        swap, none⟩
    | Except.error (MatchErr.matchedLogs _) => do
      let bridge_back_transaction_log ← matchPolygonTransactions
        (env.getTransferLogs
          (bridge_transaction_block_number - NUMBER_OF_BLOCKS_IN_1_HOUR)
          bridge_transaction_block_number polygon_token)
        amount true PolygonBridgeInteraction.FROM_ETHEREUM sender
      Except.ok ⟨false, bridge_transaction_hash, none, none,
        some bridge_back_transaction_log.transaction_hash⟩
    | Except.error e => Except.error e

/-- The union result type of the per-candidate matching functions:
either a `CrossChainMevExtraction` or a
`CrossChainMevFailedExtraction`. -/
inductive MatchResult where
  | extraction (e : CrossChainMevExtraction)
  | failed (f : CrossChainMevFailedExtraction)
deriving DecidableEq, Repr

/-- `CrossChainMatch.__process_cross_chain_mev_transaction_from_ethereum`. -/
def processCrossChainMevTransactionFromEthereum (env : MatchEnv)
    (ethereum_leg : EthereumLeg) (polygon_token : String) (receiver : String)
    (amount : ℕ) (ethereum_timestamp : ℕ) : Except MatchErr MatchResult := do
  let polygon_block_number :=
    env.findPolygonBlockAfterTimestamp ethereum_timestamp
  let find_match_response ← findFromEthereumMevTransactions env
    polygon_block_number polygon_token receiver amount
  if find_match_response.is_arbitrage then
    let swap_transaction_hash :=
      find_match_response.swap_transaction_hash.getD ""
    let parties := env.getPolygonTransactionFromAndTo swap_transaction_hash
    Except.ok (MatchResult.extraction
      ⟨ethereum_leg,
       ⟨polygon_token, find_match_response.bridge_transaction_hash,
        swap_transaction_hash, parties.1, parties.2,
        find_match_response.swap, none, none⟩,
       PolygonBridgeInteraction.FROM_ETHEREUM, amount, false, none, none⟩)
  else
    Except.ok (MatchResult.failed
      ⟨ethereum_leg, find_match_response.bridge_transaction_hash,
       find_match_response.second_bridge_transaction_hash.getD "",
       PolygonBridgeInteraction.FROM_ETHEREUM, amount⟩)

/-- `CrossChainMatch.__process_cross_chain_mev_transaction_to_ethereum`
(note the swapped bridge-hash order in the failed record). -/
def processCrossChainMevTransactionToEthereum (env : MatchEnv)
    (ethereum_leg : EthereumLeg) (polygon_token : String) (sender : String)
    (amount : ℕ) (ethereum_timestamp : ℕ) : Except MatchErr MatchResult := do
  let polygon_block_number :=
    env.findPolygonBlockBeforeTimestamp ethereum_timestamp
  let find_match_response ← findToEthereumMevTransactions env
    polygon_block_number polygon_token sender amount
  if find_match_response.is_arbitrage then
    let swap_transaction_hash :=
      find_match_response.swap_transaction_hash.getD ""
    let parties := env.getPolygonTransactionFromAndTo swap_transaction_hash
    Except.ok (MatchResult.extraction
      ⟨ethereum_leg,
       ⟨polygon_token, find_match_response.bridge_transaction_hash,
        swap_transaction_hash, parties.1, parties.2,
        find_match_response.swap, none, none⟩,
       PolygonBridgeInteraction.TO_ETHEREUM, amount, false, none, none⟩)
  else
    Except.ok (MatchResult.failed
      ⟨ethereum_leg,
       find_match_response.second_bridge_transaction_hash.getD "",
       find_match_response.bridge_transaction_hash,
       PolygonBridgeInteraction.TO_ETHEREUM, amount⟩)

/-- `CrossChainMatch.__match_from_ethereum`. -/
def matchFromEthereum (env : MatchEnv) (transaction : Transaction)
    (searcher_eoa : String) (searcher_contract : String)
    (ethereum_swap_info : Option (List Swap)) (block_timestamp : ℕ) :
    Except MatchErr MatchResult := do
  let (ethereum_token, receiver, amount) ←
    env.getFromEthereumBridgeOperationInformation transaction.transaction_hash
  let ethereum_leg : EthereumLeg :=
    ⟨ethereum_token, transaction.transaction_hash, searcher_eoa,
     searcher_contract, ethereum_swap_info, none⟩
  let polygon_token ← env.getPolygonMappedToken ethereum_token
  processCrossChainMevTransactionFromEthereum env ethereum_leg polygon_token
    receiver amount block_timestamp

/-- `CrossChainMatch.__match_to_ethereum`. -/
def matchToEthereum (env : MatchEnv) (transaction : Transaction)
    (searcher_eoa : String) (searcher_contract : String)
    (ethereum_swap_info : Option (List Swap)) (block_timestamp : ℕ) :
    Except MatchErr MatchResult := do
  let (ethereum_token, sender, amount) ←
    env.getToEthereumBridgeOperationInformation transaction.transaction_hash
  let ethereum_leg : EthereumLeg :=
    ⟨ethereum_token, transaction.transaction_hash, searcher_eoa,
     searcher_contract, ethereum_swap_info, none⟩
  let polygon_token ← env.getPolygonMappedToken ethereum_token
  processCrossChainMevTransactionToEthereum env ethereum_leg polygon_token
    sender amount block_timestamp

/-- The body of the per-transaction `try` block in
`CrossChainMatch.match_cross_chain_mev_transactions`: decode the
Ethereum swaps, look up the transaction parties, check the bridge
interaction (the failing `assert` raises `AssertionError`, an ordinary
exception), and dispatch by direction. -/
def processCandidate (env : MatchEnv) (block_timestamp : ℕ)
    (transaction : Transaction) : Except MatchErr MatchResult := do
  let ethereum_swap_info ← swapProcessTransaction env.ethereumSwapEnv
    transaction.transaction_hash
  let parties :=
    env.getEthereumTransactionFromAndTo transaction.transaction_hash
  if transaction.polygon_bridge_interaction = PolygonBridgeInteraction.NONE
    then Except.error MatchErr.other
  else if transaction.polygon_bridge_interaction
      = PolygonBridgeInteraction.FROM_ETHEREUM then
    matchFromEthereum env transaction parties.1 parties.2 ethereum_swap_info
      block_timestamp
  else
    matchToEthereum env transaction parties.1 parties.2 ethereum_swap_info
      block_timestamp

/-- `CrossChainMatch.match_cross_chain_mev_transactions`: iterate over
the block map and its transactions; a successful extraction is appended
to the first output list, a failed extraction to the second, and every
caught exception skips the candidate and continues with the next one. -/
def matchCrossChainMevTransactions (env : MatchEnv)
    (block_to_cross_chain_mev_transactions : List (ℕ × List Transaction)) :
    List CrossChainMevExtraction × List CrossChainMevFailedExtraction :=
  block_to_cross_chain_mev_transactions.foldl (fun acc entry =>
    let block_timestamp := env.getBlockTimestamp entry.1
    entry.2.foldl (fun acc transaction =>
      match processCandidate env block_timestamp transaction with
      | Except.ok (MatchResult.extraction e) => (acc.1 ++ [e], acc.2)
      | Except.ok (MatchResult.failed f) => (acc.1, acc.2 ++ [f])
      | Except.error _ => acc) acc) ([], [])

/-! ## Candidate selection (src/analysis/cross_chain_mev.py) -/

/-- `CrossChainMev.__is_transaction_non_atomic_mev`: MEV type must be
`SWAP`, then either a positive coinbase transfer value or a transaction
index below `0.1 * transactions_in_block` (computed in binary64). -/
def isTransactionNonAtomicMev (transaction : Transaction)
    (transactions_in_block : ℕ) : Bool :=
  if transaction.mev_type ≠ MevType.SWAP then false
  else if 0 < transaction.coinbase_transfer_value then true
  else if pyTenPercentLt transaction.transaction_index transactions_in_block
    then true
  else false

/-- `CrossChainMev.__analyze_block_transactions`: collect the non-atomic
MEV transactions of the block, and among them the ones interacting with
the Polygon bridge. -/
def analyzeBlockTransactions (transactions : List Transaction) :
    List Transaction × List Transaction :=
  let transactions_in_block := transactions.length
  transactions.foldl (fun acc transaction =>
    if isTransactionNonAtomicMev transaction transactions_in_block then
      (acc.1 ++ [transaction],
       if transaction.polygon_bridge_interaction
           ≠ PolygonBridgeInteraction.NONE
       then acc.2 ++ [transaction] else acc.2)
    else acc) ([], [])

/-- `CrossChainMev.__create_block_number_to_transactions_dict` followed
by the block loop of `find_cross_chain_mev_candidates`: the defaultdict
yields the empty list for a block with no entries, and only blocks with
at least one cross-chain candidate appear in the returned mapping. -/
def findCrossChainMevCandidates (transactions : List Transaction)
    (block_number_start block_number_end : ℕ) :
    List (ℕ × List Transaction) :=
  (List.range' block_number_start
    (block_number_end + 1 - block_number_start)).filterMap fun block_number =>
    let block_transactions :=
      transactions.filter (fun t => t.block_number = block_number)
    let result := analyzeBlockTransactions block_transactions
    if 0 < result.2.length then some (block_number, result.2) else none

/-! ## Arbitrage analysis (src/analysis/cross_chain_arbitrage.py) -/

/-- The hard-coded `_ETH_TO_POLYGON_TOKEN_MAP` defaultdict: legacy
pinned Polygon representations of WETH; every other key maps to the
empty list. -/
def ethToPolygonTokenMap (token : String) : List String :=
  if token = "0xC02aaA39b223FE8D0A0e5C4F27eAD9083C756Cc2" then
    ["0x7ceB23fD6bC0adD59E62ac25578270cFf1b9f619",
     "0xAe740d42E4ff0C5086b2b5b5d149eB2F9e1A754F"]
  else []

/-- The external collaborators used by `CrossChainArbitrage`: the token
registry and the Ethereum token-metadata service
(`get_token_symbol_and_parsed_amount`, which retries forever and so
always returns a symbol and the decimals-formatted amount string). -/
structure ArbitrageEnv where
  getPolygonMappedToken : String → Except MatchErr String
  getTokenSymbolAndParsedAmount : String → ℤ → String × String

/-- `CrossChainArbitrage.__analyze_from_ethereum_arbitrage`.  The Python
code indexes `swaps[0]` / `swaps[-1]`; a `None` or empty swap list
raises, which the caller's generic handler catches, so those cases are
modelled as errors. -/
def analyzeFromEthereumArbitrage (env : ArbitrageEnv)
    (extraction : CrossChainMevExtraction) :
    Except MatchErr CrossChainMevExtraction := do
  match extraction.ethereum_leg.swaps, extraction.polygon_leg.swaps with
  | some (ethereumFirst :: ethereumRest), some (polygonFirst :: polygonRest) =>
    let ethereum_token_started_with := ethereumFirst.token_in
    let polygon_token_ended_with :=
      ((polygonFirst :: polygonRest).getLast (by simp)).token_out
    let mapped ← env.getPolygonMappedToken ethereum_token_started_with
    let expected_polygon_token_ended_with :=
      mapped :: ethToPolygonTokenMap ethereum_token_started_with
    let _ := ethereumRest
    if polygon_token_ended_with ∈ expected_polygon_token_ended_with then
      let profit_amount :=
        ((polygonFirst :: polygonRest).getLast (by simp)).amount_out -
          ethereumFirst.amount_in
      let symbol_amount := env.getTokenSymbolAndParsedAmount
        ethereum_token_started_with profit_amount
      Except.ok ⟨extraction.ethereum_leg, extraction.polygon_leg,
        extraction.direction, extraction.amount_bridged, true,
        some symbol_amount.2, some symbol_amount.1⟩
    else Except.ok extraction
  | _, _ => Except.error MatchErr.other

/-- `CrossChainArbitrage.__analyze_to_ethereum_arbitrage`: compares the
first Polygon token consumed against the mapped representations of the
last Ethereum token produced, and formats the profit with the *ending*
Ethereum token's symbol and decimals. -/
def analyzeToEthereumArbitrage (env : ArbitrageEnv)
    (extraction : CrossChainMevExtraction) :
    Except MatchErr CrossChainMevExtraction := do
  match extraction.ethereum_leg.swaps, extraction.polygon_leg.swaps with
  | some (ethereumFirst :: ethereumRest), some (polygonFirst :: polygonRest) =>
    let polygon_token_started_with := polygonFirst.token_in
    let ethereum_token_ended_with :=
      ((ethereumFirst :: ethereumRest).getLast (by simp)).token_out
    let mapped ← env.getPolygonMappedToken ethereum_token_ended_with
    let expected_polygon_started_with :=
      mapped :: ethToPolygonTokenMap ethereum_token_ended_with
    let _ := polygonRest
    if polygon_token_started_with ∈ expected_polygon_started_with then
      let profit_amount :=
        ((ethereumFirst :: ethereumRest).getLast (by simp)).amount_out -
          polygonFirst.amount_in
      let symbol_amount := env.getTokenSymbolAndParsedAmount
        ethereum_token_ended_with profit_amount
      Except.ok ⟨extraction.ethereum_leg, extraction.polygon_leg,
        extraction.direction, extraction.amount_bridged, true,
        some symbol_amount.2, some symbol_amount.1⟩
    else Except.ok extraction
  | _, _ => Except.error MatchErr.other

/-! ## Transfer-log fetching (src/blockchains/polygon.py) -/

/-- The chunking loop of `PolygonService.get_transfer_logs` with
`max_block_range = 600`: while `start_block + 600 < to_block`, fetch
`[start_block, start_block + 599]` and advance by 600; finally fetch
`[start_block, to_block]`.  The fetch callback is kept generic so the
block ranges themselves can be observed by instantiating it with a
pair-returning function. -/
def getTransferLogsLoop {α : Type} (fetch : ℤ → ℤ → List α)
    (start_block to_block : ℤ) : List α :=
  if start_block + 600 < to_block then
    fetch start_block (start_block + 600 - 1) ++
      getTransferLogsLoop fetch (start_block + 600) to_block
  else fetch start_block to_block
termination_by (to_block - start_block).toNat
decreasing_by
  omega

/-- `PolygonService.get_transfer_logs`, given the underlying
`eth_getLogs` RPC (already restricted to the token's `Transfer`
events). -/
def polygonGetTransferLogs (fetch : ℤ → ℤ → List TransferLog)
    (from_block to_block : ℤ) : List TransferLog :=
  getTransferLogsLoop fetch from_block to_block

/-- The block-range chunks fetched by `PolygonService.get_transfer_logs`
over a given range. -/
def transferLogChunks (from_block to_block : ℤ) : List (ℤ × ℤ) :=
  getTransferLogsLoop (fun f t => [(f, t)]) from_block to_block

/-! ## Concrete test fixtures

Small closed environments used to witness the theorems below on
concrete inputs. -/

/-- A chain-data environment with no swap events and trivial pools. -/
def emptySwapEnv : SwapEnv :=
  { v2Logs := fun _ => [], v3Logs := fun _ => [],
    token0 := fun _ => "", token1 := fun _ => "" }

/-- Fixture bridge-mint log: mint of 100 tokens to receiver R. -/
def mintLogFx : TransferLog :=
  ⟨ADDRESS_ZERO, "R", 100, "bridge", 150, 0⟩

/-- Fixture post-bridge transfer out of R (first candidate). -/
def swapLogFx1 : TransferLog :=
  ⟨"R", "X", 100, "swap1", 160, 1⟩

/-- Fixture post-bridge transfer out of R (second candidate). -/
def swapLogFx2 : TransferLog :=
  ⟨"R", "X", 100, "swap2", 161, 2⟩

/-- Fixture bridge-back (burn) log from R. -/
def burnBackLogFx : TransferLog :=
  ⟨"R", ADDRESS_ZERO, 100, "back", 170, 3⟩

/-- Environment for the `FROM_ETHEREUM` fallback scenario: the mint
window holds the mint log, and the follow-up window holds the mint, two
ambiguous post-bridge transfers, and a bridge-back burn. -/
def matchEnvFallback : MatchEnv :=
  { getTransferLogs := fun from_block _ _ =>
      if from_block = 100 then [mintLogFx]
      else if from_block = 150 then
        [mintLogFx, swapLogFx1, swapLogFx2, burnBackLogFx]
      else [],
    polygonSwapEnv := emptySwapEnv,
    ethereumSwapEnv := emptySwapEnv,
    getEthereumTransactionFromAndTo := fun _ => ("eeoa", "econ"),
    getPolygonTransactionFromAndTo := fun _ => ("peoa", "pcon"),
    getFromEthereumBridgeOperationInformation := fun _ =>
      Except.ok ("TOK", "R", 100),
    getToEthereumBridgeOperationInformation := fun _ =>
      Except.ok ("TOK", "S", 100),
    getPolygonMappedToken := fun _ => Except.ok "PT",
    findPolygonBlockAfterTimestamp := fun _ => 100,
    findPolygonBlockBeforeTimestamp := fun _ => 10000,
    getBlockTimestamp := fun _ => 500 }

/-- Fixture bridge-burn log: burn of 100 tokens from sender S. -/
def burnLogFx : TransferLog :=
  ⟨"S", ADDRESS_ZERO, 100, "burn", 9000, 0⟩

/-- Fixture plain transfer into sender S preceding the burn. -/
def preBurnTransferFx : TransferLog :=
  ⟨"K", "S", 100, "ptx", 8900, 1⟩

/-- Environment for the `TO_ETHEREUM` plain-transfer scenario: the
backward 5-hour window holds the burn log, and the 1-hour window before
the burn holds the preceding plain transfer. -/
def matchEnvToEthereum : MatchEnv :=
  { getTransferLogs := fun from_block _ _ =>
      if from_block = 4000 then [burnLogFx]
      else if from_block = 7800 then [preBurnTransferFx, burnLogFx]
      else [],
    polygonSwapEnv := emptySwapEnv,
    ethereumSwapEnv := emptySwapEnv,
    getEthereumTransactionFromAndTo := fun _ => ("eeoa", "econ"),
    getPolygonTransactionFromAndTo := fun _ => ("peoa", "pcon"),
    getFromEthereumBridgeOperationInformation := fun _ =>
      Except.ok ("TOK", "R", 100),
    getToEthereumBridgeOperationInformation := fun _ =>
      Except.ok ("TOK", "S", 100),
    getPolygonMappedToken := fun _ => Except.ok "PT",
    findPolygonBlockAfterTimestamp := fun _ => 100,
    findPolygonBlockBeforeTimestamp := fun _ => 10000,
    getBlockTimestamp := fun _ => 500 }

/-- Fixture Ethereum leg used with the `TO_ETHEREUM` scenario. -/
def ethereumLegFx : EthereumLeg :=
  ⟨"TOK", "E", "eeoa", "econ", none, none⟩

/-- Environment for the full-pipeline `FROM_ETHEREUM` success scenario:
the mint window holds the mint log and the follow-up window exactly one
post-bridge transfer. -/
def matchEnvPipeline : MatchEnv :=
  { getTransferLogs := fun from_block _ _ =>
      if from_block = 100 then [mintLogFx]
      else if from_block = 150 then [mintLogFx, swapLogFx1]
      else [],
    polygonSwapEnv := emptySwapEnv,
    ethereumSwapEnv := emptySwapEnv,
    getEthereumTransactionFromAndTo := fun _ => ("eeoa", "econ"),
    getPolygonTransactionFromAndTo := fun _ => ("peoa", "pcon"),
    getFromEthereumBridgeOperationInformation := fun _ =>
      Except.ok ("TOK", "R", 100),
    getToEthereumBridgeOperationInformation := fun _ =>
      Except.ok ("TOK", "S", 100),
    getPolygonMappedToken := fun _ => Except.ok "PT",
    findPolygonBlockAfterTimestamp := fun _ => 100,
    findPolygonBlockBeforeTimestamp := fun _ => 10000,
    getBlockTimestamp := fun _ => 500 }

/-- Fixture candidate transaction for the full-pipeline scenario. -/
def candidateFx : Transaction :=
  ⟨1, "E", 0, MevType.SWAP, PolygonBridgeInteraction.FROM_ETHEREUM, 1⟩

/-- The extraction produced by the full-pipeline scenario. -/
def extractionFx : CrossChainMevExtraction :=
  ⟨⟨"TOK", "E", "eeoa", "econ", none, none⟩,
   ⟨"PT", "bridge", "swap1", "peoa", "pcon", none, none, none⟩,
   PolygonBridgeInteraction.FROM_ETHEREUM, 100, false, none, none⟩

/-- A swap-processor environment whose transaction `tx` holds exactly
one V2 swap event. -/
def swapEnvSingle : SwapEnv :=
  { v2Logs := fun transaction_hash =>
      if transaction_hash = "tx" then [⟨"pool", 5, 0, 0, 7, 3⟩] else [],
    v3Logs := fun _ => [],
    token0 := fun _ => "A", token1 := fun _ => "B" }

/-- Arbitrage environment distinguishing the Ethereum-side token `E`
from its Polygon representation `P` by symbol. -/
def arbitrageEnvFx : ArbitrageEnv :=
  { getPolygonMappedToken := fun token =>
      if token = "E" then Except.ok "P"
      else Except.error MatchErr.polygonBridgeInteractor,
    getTokenSymbolAndParsedAmount := fun token _ =>
      if token = "E" then ("SYM-E", "6.0") else ("SYM-P", "0.000006") }

/-- A `TO_ETHEREUM` extraction whose Polygon leg starts with token `P`
and whose Ethereum leg ends with token `E`. -/
def extractionToEthereumFx : CrossChainMevExtraction :=
  ⟨⟨"TOK", "E1", "eeoa", "econ", some [⟨"A", "E", 3, 10, 0⟩], none⟩,
   ⟨"P", "pb", "ps", "peoa", "pcon", some [⟨"P", "Q", 4, 6, 1⟩], none, none⟩,
   PolygonBridgeInteraction.TO_ETHEREUM, 100, false, none, none⟩

/-- The candidate transaction sitting beyond the exact 10% boundary of
an astronomically large block. -/
def largeBlockCandidateFx : Transaction :=
  ⟨5, "t", 10671597460980701, MevType.SWAP,
   PolygonBridgeInteraction.FROM_ETHEREUM, 0⟩

/-- Filler transaction used to pad the large fixture block. -/
def fillerTransactionFx : Transaction :=
  ⟨5, "f", 0, MevType.NONE, PolygonBridgeInteraction.NONE, 0⟩

/-- A block of 106715974609807007 transactions headed by
`largeBlockCandidateFx`. -/
def largeBlockFx : List Transaction :=
  largeBlockCandidateFx :: List.replicate 106715974609807006 fillerTransactionFx

/-! ## Lemmas: the binary64 rounding model -/

theorem roundHalfEven_bounds (N D : ℕ) (hD : 0 < D) :
    2 * N ≤ 2 * D * roundHalfEven N D + D ∧
    2 * D * roundHalfEven N D ≤ 2 * N + D := by
  have hmod : D * (N / D) + N % D = N := Nat.div_add_mod N D
  have hrlt : N % D < D := Nat.mod_lt N hD
  have hsplit : 2 * D * (N / D) = 2 * (D * (N / D)) := by ring
  have hsplit1 : 2 * D * (N / D + 1) = 2 * (D * (N / D)) + 2 * D := by ring
  simp only [roundHalfEven]
  split_ifs with h1 h2 h3 <;>
    simp only [hsplit, hsplit1] <;>
    (generalize hP : D * (N / D) = P at hmod ⊢
     generalize hR : N % D = r at hmod hrlt h1 ⊢
     omega)

theorem log2Fuel_pow_le (f : ℕ) : ∀ n, n ≤ f → 0 < n → 2 ^ log2Fuel f n ≤ n := by
  induction f with
  | zero => intro n hnf hn; omega
  | succ f ih =>
    intro n hnf hn
    rw [log2Fuel]
    split_ifs with h2
    · simpa using hn
    · have hrec := ih (n / 2) (by omega) (by omega)
      calc 2 ^ (log2Fuel f (n / 2) + 1) = 2 * 2 ^ log2Fuel f (n / 2) := by ring
        _ ≤ 2 * (n / 2) := by omega
        _ ≤ n := by omega

theorem natLog2_pow_le (n : ℕ) (hn : 0 < n) : 2 ^ natLog2 n ≤ n :=
  log2Fuel_pow_le n n le_rfl hn

theorem clog2Fuel_le_pow (f : ℕ) : ∀ c, c ≤ f → c ≤ 2 ^ clog2Fuel f c := by
  induction f with
  | zero =>
    intro c hcf
    have hc : c = 0 := by omega
    simp [hc]
  | succ f ih =>
    intro c hcf
    rw [clog2Fuel]
    split_ifs with h1
    · calc c ≤ 1 := h1
        _ ≤ 2 ^ 0 := by norm_num
    · have hrec := ih ((c + 1) / 2) (by omega)
      calc c ≤ 2 * ((c + 1) / 2) := by omega
        _ ≤ 2 * 2 ^ clog2Fuel f ((c + 1) / 2) := by
            exact Nat.mul_le_mul_left 2 hrec
        _ = 2 ^ (clog2Fuel f ((c + 1) / 2) + 1) := by ring

theorem natClog2_le_pow (c : ℕ) : c ≤ 2 ^ natClog2 c :=
  clog2Fuel_le_pow c c le_rfl

theorem flCoreUp_bounds (N D s m : ℕ) (hD : 0 < D)
    (hm : m = roundHalfEven (N * 2 ^ s) D)
    (h53 : (D : ℚ) * 2 ^ 53 ≤ 2 * N * 2 ^ s) :
    (N : ℚ) / D * (1 - 1 / 2 ^ 53) ≤ (m : ℚ) / 2 ^ s ∧
    (m : ℚ) / 2 ^ s ≤ (N : ℚ) / D * (1 + 1 / 2 ^ 53) := by
  obtain ⟨hb1, hb2⟩ := roundHalfEven_bounds (N * 2 ^ s) D hD
  rw [← hm] at hb1 hb2
  have hq1 : 2 * ((N : ℚ) * 2 ^ s) ≤ 2 * D * m + D := by exact_mod_cast hb1
  have hq2 : 2 * (D : ℚ) * m ≤ 2 * ((N : ℚ) * 2 ^ s) + D := by
    exact_mod_cast hb2
  have hD' : (0 : ℚ) < D := by exact_mod_cast hD
  have hs' : (0 : ℚ) < 2 ^ s := by positivity
  constructor
  · rw [div_mul_eq_mul_div, div_le_div_iff hD' hs']
    nlinarith [hq1, h53]
  · rw [div_mul_eq_mul_div, div_le_div_iff hs' hD']
    nlinarith [hq2, h53]

theorem flCoreDown_bounds (N D p m : ℕ) (hD : 0 < D)
    (hm : m = roundHalfEven N (D * 2 ^ p))
    (h53 : (D : ℚ) * 2 ^ p * 2 ^ 53 ≤ 2 * N) :
    (N : ℚ) / D * (1 - 1 / 2 ^ 53) ≤ (m : ℚ) * 2 ^ p ∧
    (m : ℚ) * 2 ^ p ≤ (N : ℚ) / D * (1 + 1 / 2 ^ 53) := by
  have hD2 : 0 < D * 2 ^ p := by positivity
  obtain ⟨hb1, hb2⟩ := roundHalfEven_bounds N (D * 2 ^ p) hD2
  rw [← hm] at hb1 hb2
  have hq1 : 2 * (N : ℚ) ≤ 2 * ((D : ℚ) * 2 ^ p) * m + (D : ℚ) * 2 ^ p := by
    exact_mod_cast hb1
  have hq2 : 2 * ((D : ℚ) * 2 ^ p) * m ≤ 2 * (N : ℚ) + (D : ℚ) * 2 ^ p := by
    exact_mod_cast hb2
  have hD' : (0 : ℚ) < D := by exact_mod_cast hD
  constructor
  · rw [div_mul_eq_mul_div, div_le_iff hD']
    nlinarith [hq1, h53]
  · rw [div_mul_eq_mul_div, le_div_iff hD']
    nlinarith [hq2, h53]

theorem flRoundND_bounds (N D : ℕ) (hN : 0 < N) (hD : 0 < D) :
    (N : ℚ) / D * (1 - 1 / 2 ^ 53) ≤ (flRoundND N D).val ∧
    (flRoundND N D).val ≤ (N : ℚ) / D * (1 + 1 / 2 ^ 53) := by
  simp only [flRoundND]
  split_ifs with h0 hDN he
  · omega
  · -- D ≤ N and natLog2 (N / D) ≤ 52
    have hone : 1 ≤ N / D := (Nat.one_le_div_iff hD).2 hDN
    have hlog : 2 ^ natLog2 (N / D) ≤ N / D := natLog2_pow_le _ hone
    have hDN' : D * 2 ^ natLog2 (N / D) ≤ N :=
      calc D * 2 ^ natLog2 (N / D) ≤ D * (N / D) :=
            Nat.mul_le_mul_left D hlog
        _ ≤ N := Nat.mul_div_le N D
    have hcast : (D : ℚ) * 2 ^ natLog2 (N / D) ≤ N := by exact_mod_cast hDN'
    have h53 : (D : ℚ) * 2 ^ 53 ≤ 2 * N * 2 ^ (52 - natLog2 (N / D)) := by
      have hpow : ((2 : ℚ) ^ natLog2 (N / D)) * 2 ^ (52 - natLog2 (N / D) + 1)
          = 2 ^ 53 := by
        rw [← pow_add]
        congr 1
        omega
      calc (D : ℚ) * 2 ^ 53
          = D * 2 ^ natLog2 (N / D) * 2 ^ (52 - natLog2 (N / D) + 1) := by
            rw [mul_assoc, hpow]
        _ ≤ N * 2 ^ (52 - natLog2 (N / D) + 1) :=
            mul_le_mul_of_nonneg_right hcast (by positivity)
        _ = 2 * N * 2 ^ (52 - natLog2 (N / D)) := by rw [pow_succ]; ring
    simpa [Dyadic.val] using
      flCoreUp_bounds N D (52 - natLog2 (N / D)) _ hD rfl h53
  · -- D ≤ N and 52 < natLog2 (N / D)
    have hone : 1 ≤ N / D := (Nat.one_le_div_iff hD).2 hDN
    have hlog : 2 ^ natLog2 (N / D) ≤ N / D := natLog2_pow_le _ hone
    have hDN' : D * 2 ^ natLog2 (N / D) ≤ N :=
      calc D * 2 ^ natLog2 (N / D) ≤ D * (N / D) :=
            Nat.mul_le_mul_left D hlog
        _ ≤ N := Nat.mul_div_le N D
    have hcast : (D : ℚ) * 2 ^ natLog2 (N / D) ≤ N := by exact_mod_cast hDN'
    have h53 : (D : ℚ) * 2 ^ (natLog2 (N / D) - 52) * 2 ^ 53 ≤ 2 * N := by
      have hpow : ((2 : ℚ) ^ (natLog2 (N / D) - 52)) * 2 ^ 53
          = 2 ^ natLog2 (N / D) * 2 := by
        rw [← pow_add, ← pow_succ]
        congr 1
        omega
      calc (D : ℚ) * 2 ^ (natLog2 (N / D) - 52) * 2 ^ 53
          = D * (2 ^ natLog2 (N / D) * 2) := by rw [mul_assoc, hpow]
        _ = D * 2 ^ natLog2 (N / D) * 2 := by ring
        _ ≤ N * 2 := mul_le_mul_of_nonneg_right hcast (by norm_num)
        _ = 2 * N := by ring
    have hcore := flCoreDown_bounds N D (natLog2 (N / D) - 52) _ hD rfl h53
    simpa [Dyadic.val] using hcore
  · -- N < D
    have hc : D ≤ N * ((D + N - 1) / N) := by
      have hdm : N * ((D + N - 1) / N) + (D + N - 1) % N = D + N - 1 :=
        Nat.div_add_mod (D + N - 1) N
      have hmlt : (D + N - 1) % N < N := Nat.mod_lt (D + N - 1) hN
      generalize hP : N * ((D + N - 1) / N) = P at hdm ⊢
      omega
    have hk : D ≤ N * 2 ^ natClog2 ((D + N - 1) / N) :=
      le_trans hc (Nat.mul_le_mul_left N (natClog2_le_pow _))
    have hcast : (D : ℚ) ≤ N * 2 ^ natClog2 ((D + N - 1) / N) := by
      exact_mod_cast hk
    have h53 : (D : ℚ) * 2 ^ 53
        ≤ 2 * N * 2 ^ (52 + natClog2 ((D + N - 1) / N)) := by
      have hpow : ((2 : ℚ) ^ natClog2 ((D + N - 1) / N)) * 2 ^ 53
          = 2 * 2 ^ (52 + natClog2 ((D + N - 1) / N)) := by
        rw [← pow_add, ← pow_succ']
        congr 1
        omega
      calc (D : ℚ) * 2 ^ 53
          ≤ N * 2 ^ natClog2 ((D + N - 1) / N) * 2 ^ 53 :=
            mul_le_mul_of_nonneg_right hcast (by positivity)
        _ = N * (2 ^ natClog2 ((D + N - 1) / N) * 2 ^ 53) := by ring
        _ = N * (2 * 2 ^ (52 + natClog2 ((D + N - 1) / N))) := by rw [hpow]
        _ = 2 * N * 2 ^ (52 + natClog2 ((D + N - 1) / N)) := by ring
    simpa [Dyadic.val] using
      flCoreUp_bounds N D (52 + natClog2 ((D + N - 1) / N)) _ hD rfl h53

theorem Dyadic.val_nonneg (x : Dyadic) : 0 ≤ x.val := by
  rw [Dyadic.val]
  positivity

theorem Dyadic.num_pos_of_val_pos {x : Dyadic} (h : 0 < x.val) : 0 < x.num := by
  rcases Nat.eq_zero_or_pos x.num with h0 | hpos
  · rw [Dyadic.val, h0] at h
    norm_num at h
  · exact hpos

theorem Dyadic.val_pos_of_num_pos {x : Dyadic} (h : 0 < x.num) : 0 < x.val := by
  rw [Dyadic.val]
  have : (0 : ℚ) < x.num := by exact_mod_cast h
  positivity

theorem nat_le_dyadic_iff (v : ℕ) (x : Dyadic) :
    v * 2 ^ x.exp ≤ x.num ↔ (v : ℚ) ≤ x.val := by
  rw [Dyadic.val, le_div_iff (by positivity : (0 : ℚ) < 2 ^ x.exp)]
  constructor <;> intro h <;> exact_mod_cast h

theorem dyadic_le_nat_iff (x : Dyadic) (v : ℕ) :
    x.num ≤ v * 2 ^ x.exp ↔ x.val ≤ (v : ℚ) := by
  rw [Dyadic.val, div_le_iff (by positivity : (0 : ℚ) < 2 ^ x.exp)]
  constructor <;> intro h <;> exact_mod_cast h

theorem nat_lt_dyadic_iff (v : ℕ) (x : Dyadic) :
    v * 2 ^ x.exp < x.num ↔ (v : ℚ) < x.val := by
  rw [Dyadic.val, lt_div_iff (by positivity : (0 : ℚ) < 2 ^ x.exp)]
  constructor <;> intro h <;> exact_mod_cast h

theorem pyMulFloat_val_bounds (n : ℕ) (c : Dyadic) (hn : 0 < n)
    (hc : 0 < c.num) :
    (n : ℚ) * c.val * ((1 - 1 / 2 ^ 53) * (1 - 1 / 2 ^ 53))
        ≤ (pyMulFloat n c).val ∧
    (pyMulFloat n c).val
        ≤ (n : ℚ) * c.val * ((1 + 1 / 2 ^ 53) * (1 + 1 / 2 ^ 53)) := by
  obtain ⟨hx1, hx2⟩ := flRoundND_bounds n 1 hn one_pos
  rw [Nat.cast_one, div_one] at hx1 hx2
  have hn' : (0 : ℚ) < n := by exact_mod_cast hn
  have hxpos : 0 < (flRoundND n 1).val :=
    lt_of_lt_of_le (by nlinarith) hx1
  have hxnum : 0 < (flRoundND n 1).num := Dyadic.num_pos_of_val_pos hxpos
  have hcval : 0 < c.val := Dyadic.val_pos_of_num_pos hc
  obtain ⟨hy1, hy2⟩ := flRoundND_bounds ((flRoundND n 1).num * c.num)
    (2 ^ ((flRoundND n 1).exp + c.exp)) (Nat.mul_pos hxnum hc)
    (Nat.pos_pow_of_pos _ (by norm_num))
  have hval : ((((flRoundND n 1).num * c.num : ℕ)) : ℚ)
      / ((2 ^ ((flRoundND n 1).exp + c.exp) : ℕ) : ℚ)
      = (flRoundND n 1).val * c.val := by
    simp only [Dyadic.val]
    push_cast
    rw [pow_add, div_mul_div_comm]
  rw [hval] at hy1 hy2
  constructor
  · refine le_trans ?_ hy1
    have h1 : (n : ℚ) * (1 - 1 / 2 ^ 53) * c.val
        ≤ (flRoundND n 1).val * c.val :=
      mul_le_mul_of_nonneg_right hx1 (le_of_lt hcval)
    nlinarith [h1]
  · refine le_trans hy2 ?_
    have h1 : (flRoundND n 1).val * c.val ≤ (n : ℚ) * (1 + 1 / 2 ^ 53) * c.val :=
      mul_le_mul_of_nonneg_right hx2 (le_of_lt hcval)
    nlinarith [h1, hcval, hn']

theorem pyMulFloat_zero (c : Dyadic) : pyMulFloat 0 c = ⟨0, 0⟩ := by
  simp [pyMulFloat, flRoundND]

theorem float101_eq : float101 = ⟨4548635623644201, 52⟩ := by decide

theorem float99_eq : float99 = ⟨8917127262193582, 53⟩ := by decide

theorem float01_eq : float01 = ⟨7205759403792794, 56⟩ := by decide

theorem float101_num_pos : 0 < float101.num := by rw [float101_eq]; norm_num

theorem float99_num_pos : 0 < float99.num := by rw [float99_eq]; norm_num

theorem float01_num_pos : 0 < float01.num := by rw [float01_eq]; norm_num

theorem float101_val_le : float101.val ≤ 101 / 100 * (1 + 1 / 2 ^ 54) := by
  rw [float101_eq, Dyadic.val]
  norm_num

theorem le_float101_val : (101 : ℚ) / 100 ≤ float101.val := by
  rw [float101_eq, Dyadic.val]
  norm_num

theorem float99_val_ge : 99 / 100 * (1 - 1 / 2 ^ 54) ≤ float99.val := by
  rw [float99_eq, Dyadic.val]
  norm_num

theorem float99_val_le : float99.val ≤ 99 / 100 := by
  rw [float99_eq, Dyadic.val]
  norm_num

theorem float01_val_eq : float01.val = 1 / 10 * (1 + 1 / 2 ^ 54) := by
  rw [float01_eq, Dyadic.val]
  norm_num

theorem toleranceKeep_iff (amount value : ℕ) :
    toleranceKeep amount value = true ↔
      (value : ℚ) ≤ (pyMulFloat amount float101).val ∧
      (pyMulFloat amount float99).val ≤ (value : ℚ) := by
  rw [toleranceKeep]
  simp only [Bool.and_eq_true, decide_eq_true_eq]
  rw [nat_le_dyadic_iff, dyadic_le_nat_iff]

theorem pyTenPercentLt_iff (i n : ℕ) :
    pyTenPercentLt i n = true ↔ (i : ℚ) < (pyMulFloat n float01).val := by
  rw [pyTenPercentLt]
  simp only [decide_eq_true_eq]
  rw [nat_lt_dyadic_iff]

theorem pyMulFloat_float101_upper (amount : ℕ) :
    (pyMulFloat amount float101).val
      ≤ 101 / 100 * amount * (1 + 1 / 2 ^ 50) := by
  rcases Nat.eq_zero_or_pos amount with h0 | hpos
  · subst h0
    rw [pyMulFloat_zero, Dyadic.val]
    norm_num
  · have ha' : (0 : ℚ) ≤ amount := by positivity
    obtain ⟨_, hup2⟩ := pyMulFloat_val_bounds amount float101 hpos
      float101_num_pos
    have h2 : (amount : ℚ) * float101.val * ((1 + 1 / 2 ^ 53) * (1 + 1 / 2 ^ 53))
        ≤ (amount : ℚ) * (101 / 100 * (1 + 1 / 2 ^ 54))
          * ((1 + 1 / 2 ^ 53) * (1 + 1 / 2 ^ 53)) := by
      have hmul := mul_le_mul_of_nonneg_left float101_val_le ha'
      nlinarith [hmul]
    have hnum : ((1 : ℚ) + 1 / 2 ^ 54) * ((1 + 1 / 2 ^ 53) * (1 + 1 / 2 ^ 53))
        ≤ 1 + 1 / 2 ^ 50 := by norm_num
    have h3 : (amount : ℚ) * (101 / 100)
          * ((1 + 1 / 2 ^ 54) * ((1 + 1 / 2 ^ 53) * (1 + 1 / 2 ^ 53)))
        ≤ (amount : ℚ) * (101 / 100) * (1 + 1 / 2 ^ 50) :=
      mul_le_mul_of_nonneg_left hnum (by positivity)
    calc (pyMulFloat amount float101).val
        ≤ (amount : ℚ) * float101.val * ((1 + 1 / 2 ^ 53) * (1 + 1 / 2 ^ 53)) :=
          hup2
      _ ≤ (amount : ℚ) * (101 / 100 * (1 + 1 / 2 ^ 54))
          * ((1 + 1 / 2 ^ 53) * (1 + 1 / 2 ^ 53)) := h2
      _ = (amount : ℚ) * (101 / 100)
          * ((1 + 1 / 2 ^ 54) * ((1 + 1 / 2 ^ 53) * (1 + 1 / 2 ^ 53))) := by
          ring
      _ ≤ (amount : ℚ) * (101 / 100) * (1 + 1 / 2 ^ 50) := h3
      _ = 101 / 100 * amount * (1 + 1 / 2 ^ 50) := by ring

theorem pyMulFloat_float101_lower (amount : ℕ) :
    101 / 100 * (amount : ℚ) * (1 - 1 / 2 ^ 50)
      ≤ (pyMulFloat amount float101).val := by
  rcases Nat.eq_zero_or_pos amount with h0 | hpos
  · subst h0
    rw [pyMulFloat_zero, Dyadic.val]
    norm_num
  · have ha' : (0 : ℚ) ≤ amount := by positivity
    obtain ⟨hup1, _⟩ := pyMulFloat_val_bounds amount float101 hpos
      float101_num_pos
    have h2 : (amount : ℚ) * (101 / 100)
          * ((1 - 1 / 2 ^ 53) * (1 - 1 / 2 ^ 53))
        ≤ (amount : ℚ) * float101.val
          * ((1 - 1 / 2 ^ 53) * (1 - 1 / 2 ^ 53)) := by
      have hmul := mul_le_mul_of_nonneg_left le_float101_val ha'
      nlinarith [hmul]
    have hnum : (1 : ℚ) - 1 / 2 ^ 50
        ≤ (1 - 1 / 2 ^ 53) * (1 - 1 / 2 ^ 53) := by norm_num
    have h3 : (amount : ℚ) * (101 / 100) * (1 - 1 / 2 ^ 50)
        ≤ (amount : ℚ) * (101 / 100)
          * ((1 - 1 / 2 ^ 53) * (1 - 1 / 2 ^ 53)) :=
      mul_le_mul_of_nonneg_left hnum (by positivity)
    calc 101 / 100 * (amount : ℚ) * (1 - 1 / 2 ^ 50)
        = (amount : ℚ) * (101 / 100) * (1 - 1 / 2 ^ 50) := by ring
      _ ≤ (amount : ℚ) * (101 / 100)
          * ((1 - 1 / 2 ^ 53) * (1 - 1 / 2 ^ 53)) := h3
      _ ≤ (amount : ℚ) * float101.val
          * ((1 - 1 / 2 ^ 53) * (1 - 1 / 2 ^ 53)) := h2
      _ ≤ (pyMulFloat amount float101).val := hup1

theorem pyMulFloat_float99_lower (amount : ℕ) :
    99 / 100 * (amount : ℚ) * (1 - 1 / 2 ^ 50)
      ≤ (pyMulFloat amount float99).val := by
  rcases Nat.eq_zero_or_pos amount with h0 | hpos
  · subst h0
    rw [pyMulFloat_zero, Dyadic.val]
    norm_num
  · have ha' : (0 : ℚ) ≤ amount := by positivity
    obtain ⟨hlo1, _⟩ := pyMulFloat_val_bounds amount float99 hpos
      float99_num_pos
    have h2 : (amount : ℚ) * (99 / 100 * (1 - 1 / 2 ^ 54))
          * ((1 - 1 / 2 ^ 53) * (1 - 1 / 2 ^ 53))
        ≤ (amount : ℚ) * float99.val
          * ((1 - 1 / 2 ^ 53) * (1 - 1 / 2 ^ 53)) := by
      have hmul := mul_le_mul_of_nonneg_left float99_val_ge ha'
      nlinarith [hmul]
    have hnum : (1 : ℚ) - 1 / 2 ^ 50
        ≤ (1 - 1 / 2 ^ 54) * ((1 - 1 / 2 ^ 53) * (1 - 1 / 2 ^ 53)) := by
      norm_num
    have h3 : (amount : ℚ) * (99 / 100) * (1 - 1 / 2 ^ 50)
        ≤ (amount : ℚ) * (99 / 100)
          * ((1 - 1 / 2 ^ 54) * ((1 - 1 / 2 ^ 53) * (1 - 1 / 2 ^ 53))) :=
      mul_le_mul_of_nonneg_left hnum (by positivity)
    calc 99 / 100 * (amount : ℚ) * (1 - 1 / 2 ^ 50)
        = (amount : ℚ) * (99 / 100) * (1 - 1 / 2 ^ 50) := by ring
      _ ≤ (amount : ℚ) * (99 / 100)
          * ((1 - 1 / 2 ^ 54) * ((1 - 1 / 2 ^ 53) * (1 - 1 / 2 ^ 53))) := h3
      _ = (amount : ℚ) * (99 / 100 * (1 - 1 / 2 ^ 54))
          * ((1 - 1 / 2 ^ 53) * (1 - 1 / 2 ^ 53)) := by ring
      _ ≤ (amount : ℚ) * float99.val
          * ((1 - 1 / 2 ^ 53) * (1 - 1 / 2 ^ 53)) := h2
      _ ≤ (pyMulFloat amount float99).val := hlo1

theorem pyMulFloat_float99_upper (amount : ℕ) :
    (pyMulFloat amount float99).val
      ≤ 99 / 100 * (amount : ℚ) * (1 + 1 / 2 ^ 50) := by
  rcases Nat.eq_zero_or_pos amount with h0 | hpos
  · subst h0
    rw [pyMulFloat_zero, Dyadic.val]
    norm_num
  · have ha' : (0 : ℚ) ≤ amount := by positivity
    obtain ⟨_, hlo2⟩ := pyMulFloat_val_bounds amount float99 hpos
      float99_num_pos
    have h2 : (amount : ℚ) * float99.val * ((1 + 1 / 2 ^ 53) * (1 + 1 / 2 ^ 53))
        ≤ (amount : ℚ) * (99 / 100) * ((1 + 1 / 2 ^ 53) * (1 + 1 / 2 ^ 53)) := by
      have hmul := mul_le_mul_of_nonneg_left float99_val_le ha'
      nlinarith [hmul]
    have hnum : ((1 : ℚ) + 1 / 2 ^ 53) * (1 + 1 / 2 ^ 53) ≤ 1 + 1 / 2 ^ 50 := by
      norm_num
    have h3 : (amount : ℚ) * (99 / 100)
          * ((1 + 1 / 2 ^ 53) * (1 + 1 / 2 ^ 53))
        ≤ (amount : ℚ) * (99 / 100) * (1 + 1 / 2 ^ 50) :=
      mul_le_mul_of_nonneg_left hnum (by positivity)
    calc (pyMulFloat amount float99).val
        ≤ (amount : ℚ) * float99.val * ((1 + 1 / 2 ^ 53) * (1 + 1 / 2 ^ 53)) :=
          hlo2
      _ ≤ (amount : ℚ) * (99 / 100)
          * ((1 + 1 / 2 ^ 53) * (1 + 1 / 2 ^ 53)) := h2
      _ ≤ (amount : ℚ) * (99 / 100) * (1 + 1 / 2 ^ 50) := h3
      _ = 99 / 100 * (amount : ℚ) * (1 + 1 / 2 ^ 50) := by ring

theorem pyMulFloat_float01_upper (n : ℕ) :
    (pyMulFloat n float01).val ≤ (n : ℚ) / 10 * (1 + 1 / 2 ^ 50) := by
  rcases Nat.eq_zero_or_pos n with h0 | hpos
  · subst h0
    rw [pyMulFloat_zero, Dyadic.val]
    norm_num
  · have ha' : (0 : ℚ) ≤ n := by positivity
    obtain ⟨_, h2⟩ := pyMulFloat_val_bounds n float01 hpos float01_num_pos
    rw [float01_val_eq] at h2
    have hnum : ((1 : ℚ) + 1 / 2 ^ 54) * ((1 + 1 / 2 ^ 53) * (1 + 1 / 2 ^ 53))
        ≤ 1 + 1 / 2 ^ 50 := by norm_num
    have h3 : (n : ℚ) * (1 / 10)
          * ((1 + 1 / 2 ^ 54) * ((1 + 1 / 2 ^ 53) * (1 + 1 / 2 ^ 53)))
        ≤ (n : ℚ) * (1 / 10) * (1 + 1 / 2 ^ 50) :=
      mul_le_mul_of_nonneg_left hnum (by positivity)
    calc (pyMulFloat n float01).val
        ≤ (n : ℚ) * (1 / 10 * (1 + 1 / 2 ^ 54))
          * ((1 + 1 / 2 ^ 53) * (1 + 1 / 2 ^ 53)) := h2
      _ = (n : ℚ) * (1 / 10)
          * ((1 + 1 / 2 ^ 54) * ((1 + 1 / 2 ^ 53) * (1 + 1 / 2 ^ 53))) := by
          ring
      _ ≤ (n : ℚ) * (1 / 10) * (1 + 1 / 2 ^ 50) := h3
      _ = (n : ℚ) / 10 * (1 + 1 / 2 ^ 50) := by ring

theorem pyMulFloat_float01_lower (n : ℕ) :
    (n : ℚ) / 10 * (1 - 1 / 2 ^ 50) ≤ (pyMulFloat n float01).val := by
  rcases Nat.eq_zero_or_pos n with h0 | hpos
  · subst h0
    rw [pyMulFloat_zero, Dyadic.val]
    norm_num
  · have ha' : (0 : ℚ) ≤ n := by positivity
    obtain ⟨h1, _⟩ := pyMulFloat_val_bounds n float01 hpos float01_num_pos
    rw [float01_val_eq] at h1
    have hnum : (1 : ℚ) - 1 / 2 ^ 50
        ≤ (1 + 1 / 2 ^ 54) * ((1 - 1 / 2 ^ 53) * (1 - 1 / 2 ^ 53)) := by
      norm_num
    have h3 : (n : ℚ) * (1 / 10) * (1 - 1 / 2 ^ 50)
        ≤ (n : ℚ) * (1 / 10)
          * ((1 + 1 / 2 ^ 54) * ((1 - 1 / 2 ^ 53) * (1 - 1 / 2 ^ 53))) :=
      mul_le_mul_of_nonneg_left hnum (by positivity)
    calc (n : ℚ) / 10 * (1 - 1 / 2 ^ 50)
        = (n : ℚ) * (1 / 10) * (1 - 1 / 2 ^ 50) := by ring
      _ ≤ (n : ℚ) * (1 / 10)
          * ((1 + 1 / 2 ^ 54) * ((1 - 1 / 2 ^ 53) * (1 - 1 / 2 ^ 53))) := h3
      _ = (n : ℚ) * (1 / 10 * (1 + 1 / 2 ^ 54))
          * ((1 - 1 / 2 ^ 53) * (1 - 1 / 2 ^ 53)) := by ring
      _ ≤ (pyMulFloat n float01).val := h1

/-- C4 (counterexample): the tolerant filter keeps the value
77054290668724477231104 for target amount 76291376899727204793904,
although that value lies strictly above the exact rational bound
`1.01 × amount`; the binary64-computed bound exceeds the exact one. -/
theorem c4_counterexample :
    toleranceKeep 76291376899727204793904 77054290668724477231104 = true ∧
    ¬ ((77054290668724477231104 : ℚ)
        ≤ 101 / 100 * 76291376899727204793904) := by
  constructor
  · decide
  · norm_num

/-- C4 (amended): the tolerant filter compares the log value against
`amount * 1.01` and `amount * 0.99` computed in binary64 floating
point.  Every kept value lies within the ±1 % band relaxed by a
relative margin of `2 ^ (-50)`, and every value inside the band
tightened by that margin is kept; the exact rational bounds themselves
are honoured only up to this floating-point error. -/
theorem c4_tolerance_band (amount value : ℕ) (hrange : amount < 2 ^ 1024) :
    (toleranceKeep amount value = true →
      99 / 100 * (amount : ℚ) * (1 - 1 / 2 ^ 50) ≤ value ∧
      (value : ℚ) ≤ 101 / 100 * amount * (1 + 1 / 2 ^ 50)) ∧
    (99 / 100 * (amount : ℚ) * (1 + 1 / 2 ^ 50) ≤ value →
      (value : ℚ) ≤ 101 / 100 * amount * (1 - 1 / 2 ^ 50) →
      toleranceKeep amount value = true) := by
  constructor
  · intro hkeep
    rw [toleranceKeep_iff] at hkeep
    exact ⟨le_trans (pyMulFloat_float99_lower amount) hkeep.2,
           le_trans hkeep.1 (pyMulFloat_float101_upper amount)⟩
  · intro hlo hup
    rw [toleranceKeep_iff]
    exact ⟨le_trans hup (pyMulFloat_float101_lower amount),
           le_trans (pyMulFloat_float99_upper amount) hlo⟩

/-- C4 (witness): the amended theorem applied at amount 100, value
100. -/
theorem c4_tolerance_band_witness :
    99 / 100 * ((100 : ℕ) : ℚ) * (1 - 1 / 2 ^ 50) ≤ ((100 : ℕ) : ℚ) ∧
    (((100 : ℕ) : ℚ)) ≤ 101 / 100 * ((100 : ℕ) : ℚ) * (1 + 1 / 2 ^ 50) :=
  (c4_tolerance_band 100 100 (by norm_num)).1 (by decide)

theorem analyzeBlockTransactions_go (n : ℕ) (l : List Transaction)
    (acc : List Transaction × List Transaction) :
    l.foldl (fun acc transaction =>
      if isTransactionNonAtomicMev transaction n then
        (acc.1 ++ [transaction],
         if transaction.polygon_bridge_interaction
             ≠ PolygonBridgeInteraction.NONE
         then acc.2 ++ [transaction] else acc.2)
      else acc) acc
    = (acc.1 ++ l.filter (fun t => isTransactionNonAtomicMev t n),
       acc.2 ++ l.filter (fun t => isTransactionNonAtomicMev t n &&
         decide (t.polygon_bridge_interaction
           ≠ PolygonBridgeInteraction.NONE))) := by
  induction l generalizing acc with
  | nil => simp
  | cons hd tl ih =>
    simp only [List.foldl_cons, List.filter_cons]
    by_cases h1 : isTransactionNonAtomicMev hd n
    · by_cases h2 : hd.polygon_bridge_interaction
          ≠ PolygonBridgeInteraction.NONE
      · rw [if_pos h1, if_pos h2, ih]
        simp [h1, h2]
      · rw [if_pos h1, if_neg h2, ih]
        simp [h1, h2]
    · rw [if_neg h1, ih]
      simp [h1]

theorem analyzeBlockTransactions_eq (transactions : List Transaction) :
    analyzeBlockTransactions transactions =
      (transactions.filter
        (fun t => isTransactionNonAtomicMev t transactions.length),
       transactions.filter
        (fun t => isTransactionNonAtomicMev t transactions.length &&
          decide (t.polygon_bridge_interaction
            ≠ PolygonBridgeInteraction.NONE))) := by
  rw [analyzeBlockTransactions]
  simpa using analyzeBlockTransactions_go transactions.length transactions
    ([], [])

/-- C7 (counterexample): in a block of 106715974609807007 transactions,
the swap transaction at index 10671597460980701 with zero coinbase
transfer is classified as a non-atomic MEV candidate although its index
is not strictly within the first 10 % of the block
(`10 * index ≥ count`): the binary64 threshold `0.1 * count` exceeds
the exact one. -/
theorem c7_counterexample :
    largeBlockCandidateFx ∈ (analyzeBlockTransactions largeBlockFx).1 ∧
    ¬ (10 * largeBlockCandidateFx.transaction_index < largeBlockFx.length) := by
  have hlen : largeBlockFx.length = 106715974609807007 := by
    rw [largeBlockFx, List.length_cons, List.length_replicate]
  constructor
  · rw [analyzeBlockTransactions_eq, hlen]
    apply List.mem_filter.2
    refine ⟨?_, by decide⟩
    rw [largeBlockFx]
    exact List.mem_cons_self _ _
  · rw [hlen]
    decide

/-- C7 (amended): a transaction is selected as a non-atomic MEV
candidate exactly when its MEV type is swap and either its coinbase
transfer value is positive or its index satisfies
`index < 0.1 * count` evaluated in binary64 — a threshold that agrees
with the exact strict-10 % cutoff up to a relative error of
`2 ^ (-50)`.  Among the candidates, exactly those whose bridge flag is
not none are returned, grouped by block, and a block with no entries
contributes nothing (its transaction list is empty, never a failure). -/
theorem c7_candidate_selection (transactions : List Transaction)
    (block_number_start block_number_end : ℕ) :
    (∀ b cc,
      (b, cc) ∈ findCrossChainMevCandidates transactions
          block_number_start block_number_end ↔
        (block_number_start ≤ b ∧ b ≤ block_number_end ∧ cc ≠ [] ∧
         cc = (transactions.filter (fun t => t.block_number = b)).filter
           (fun t =>
             isTransactionNonAtomicMev t
               (transactions.filter (fun t' => t'.block_number = b)).length &&
             decide (t.polygon_bridge_interaction
               ≠ PolygonBridgeInteraction.NONE)))) ∧
    (∀ t n, isTransactionNonAtomicMev t n = true ↔
       (t.mev_type = MevType.SWAP ∧
        (0 < t.coinbase_transfer_value ∨
         pyTenPercentLt t.transaction_index n = true))) ∧
    (∀ i n : ℕ, n < 2 ^ 1024 →
       (pyTenPercentLt i n = true →
         (i : ℚ) < (n : ℚ) / 10 * (1 + 1 / 2 ^ 50)) ∧
       ((i : ℚ) < (n : ℚ) / 10 * (1 - 1 / 2 ^ 50) →
         pyTenPercentLt i n = true)) := by
  refine ⟨?_, ?_, ?_⟩
  · intro b cc
    rw [findCrossChainMevCandidates]
    rw [List.mem_filterMap]
    constructor
    · rintro ⟨a, ha, hg⟩
      simp only [analyzeBlockTransactions_eq] at hg
      by_cases hpos : 0 < ((transactions.filter
          (fun t => t.block_number = a)).filter
          (fun t => isTransactionNonAtomicMev t
            (transactions.filter (fun t' => t'.block_number = a)).length &&
            decide (t.polygon_bridge_interaction
              ≠ PolygonBridgeInteraction.NONE))).length
      · rw [if_pos hpos] at hg
        obtain ⟨rfl, rfl⟩ : a = b ∧ (transactions.filter
            (fun t => t.block_number = a)).filter
            (fun t => isTransactionNonAtomicMev t
              (transactions.filter (fun t' => t'.block_number = a)).length &&
              decide (t.polygon_bridge_interaction
                ≠ PolygonBridgeInteraction.NONE)) = cc := by
          have := Option.some.inj hg
          exact ⟨congrArg Prod.fst this, congrArg Prod.snd this⟩
        rw [List.mem_range'_1] at ha
        refine ⟨by omega, by omega, ?_, rfl⟩
        intro hnil
        rw [hnil] at hpos
        simp at hpos
      · rw [if_neg hpos] at hg
        exact absurd hg (by simp)
    · rintro ⟨hb1, hb2, hnil, hcc⟩
      refine ⟨b, ?_, ?_⟩
      · rw [List.mem_range'_1]
        omega
      · simp only [analyzeBlockTransactions_eq]
        have hpos : 0 < ((transactions.filter
            (fun t => t.block_number = b)).filter
            (fun t => isTransactionNonAtomicMev t
              (transactions.filter (fun t' => t'.block_number = b)).length &&
              decide (t.polygon_bridge_interaction
                ≠ PolygonBridgeInteraction.NONE))).length := by
          rw [← hcc]
          cases cc with
          | nil => exact absurd rfl hnil
          | cons hd tl => simp
        rw [if_pos hpos, hcc]
  · intro t n
    rw [isTransactionNonAtomicMev]
    split_ifs with h1 h2 h3 <;> simp_all
  · intro i n hrange
    constructor
    · intro h
      rw [pyTenPercentLt_iff] at h
      exact lt_of_lt_of_le h (pyMulFloat_float01_upper n)
    · intro h
      rw [pyTenPercentLt_iff]
      exact lt_of_lt_of_le h (pyMulFloat_float01_lower n)

/-- C7 (witness): the amended characterization applied to a concrete
one-transaction block range. -/
theorem c7_candidate_selection_witness :
    (7, [(⟨7, "w", 0, MevType.SWAP, PolygonBridgeInteraction.FROM_ETHEREUM,
        5⟩ : Transaction)]) ∈
      findCrossChainMevCandidates
        [⟨7, "w", 0, MevType.SWAP, PolygonBridgeInteraction.FROM_ETHEREUM, 5⟩]
        7 7 :=
  ((c7_candidate_selection
      [⟨7, "w", 0, MevType.SWAP, PolygonBridgeInteraction.FROM_ETHEREUM, 5⟩]
      7 7).1 7 _).2
    ⟨le_rfl, le_rfl, by decide, by decide⟩

theorem matchPolygon_ok_of_filter {transfer_logs : List TransferLog}
    {amount : ℕ} {is_bridge_transaction : Bool}
    {interaction : PolygonBridgeInteraction} {sender_or_receiver : String}
    {log : TransferLog}
    (h : transfer_logs.filter (transferLogPasses amount is_bridge_transaction
      interaction sender_or_receiver) = [log]) :
    matchPolygonTransactions transfer_logs amount is_bridge_transaction
      interaction sender_or_receiver = Except.ok log := by
  simp only [matchPolygonTransactions, h]
  norm_num [List.headI]

theorem matchPolygon_error_of_length {transfer_logs : List TransferLog}
    {amount : ℕ} {is_bridge_transaction : Bool}
    {interaction : PolygonBridgeInteraction} {sender_or_receiver : String}
    (h : (transfer_logs.filter (transferLogPasses amount is_bridge_transaction
      interaction sender_or_receiver)).length ≠ 1) :
    matchPolygonTransactions transfer_logs amount is_bridge_transaction
      interaction sender_or_receiver
      = Except.error (MatchErr.matchedLogs (transfer_logs.filter
          (transferLogPasses amount is_bridge_transaction interaction
            sender_or_receiver))) := by
  simp only [matchPolygonTransactions]
  rw [if_pos h]

/-- C1: the windowed tolerant log match returns the unique surviving
log when exactly one transfer log passes the tolerance-and-role filter,
and otherwise (zero or several survivors) raises `MatchedLogsError`
carrying the full list of surviving candidate logs — it never silently
picks one. -/
theorem c1_tolerant_match_exactly_one (transfer_logs : List TransferLog)
    (amount : ℕ) (is_bridge_transaction : Bool)
    (interaction : PolygonBridgeInteraction) (sender_or_receiver : String) :
    (∀ log, transfer_logs.filter (transferLogPasses amount
        is_bridge_transaction interaction sender_or_receiver) = [log] →
      matchPolygonTransactions transfer_logs amount is_bridge_transaction
        interaction sender_or_receiver = Except.ok log) ∧
    ((transfer_logs.filter (transferLogPasses amount is_bridge_transaction
        interaction sender_or_receiver)).length ≠ 1 →
      matchPolygonTransactions transfer_logs amount is_bridge_transaction
        interaction sender_or_receiver
        = Except.error (MatchErr.matchedLogs (transfer_logs.filter
            (transferLogPasses amount is_bridge_transaction interaction
              sender_or_receiver)))) :=
  ⟨fun _ h => matchPolygon_ok_of_filter h,
   fun h => matchPolygon_error_of_length h⟩

/-- C1 (witness): the matcher applied where exactly the mint log
survives the filter. -/
theorem c1_tolerant_match_exactly_one_witness :
    matchPolygonTransactions [mintLogFx, swapLogFx1] 100 true
      PolygonBridgeInteraction.FROM_ETHEREUM "R" = Except.ok mintLogFx :=
  (c1_tolerant_match_exactly_one [mintLogFx, swapLogFx1] 100 true
    PolygonBridgeInteraction.FROM_ETHEREUM "R").1 mintLogFx (by decide)

theorem transferLogPasses_plain_to (amount : ℕ) (sender : String)
    (log : TransferLog) :
    transferLogPasses amount false PolygonBridgeInteraction.TO_ETHEREUM
      sender log =
      (toleranceKeep amount log.value &&
        (decide (log.to_address = sender) &&
          decide (log.from_address ≠ ADDRESS_ZERO))) := by
  simp [transferLogPasses, directionField, reverseDirectionField]

/-- C2: in the TO_ETHEREUM direction, when the burn transaction found
in step 1 contains no swap, the matcher searches the window
`[burnBlock - 1h, burnBlock]` for a plain transfer whose known-sender
side (`args.to`) equals the sender and whose other side (`args.from`)
is not the zero address; when exactly one such transfer survives, it
decodes that transaction's swaps and returns a successful extraction
built from the burn and transfer hashes. -/
theorem c2_to_ethereum_plain_transfer (env : MatchEnv)
    (ethereum_leg : EthereumLeg) (polygon_token sender : String)
    (amount ethereum_timestamp : ℕ) (bridge_log swap_log : TransferLog)
    (swaps : Option (List Swap)) :
    matchPolygonTransactions
      (env.getTransferLogs
        (env.findPolygonBlockBeforeTimestamp ethereum_timestamp
          - NUMBER_OF_BLOCKS_IN_5_HOURS)
        (env.findPolygonBlockBeforeTimestamp ethereum_timestamp)
        polygon_token)
      amount true PolygonBridgeInteraction.TO_ETHEREUM sender
      = Except.ok bridge_log →
    swapProcessTransaction env.polygonSwapEnv bridge_log.transaction_hash
      = Except.ok none →
    (env.getTransferLogs
        (bridge_log.block_number - NUMBER_OF_BLOCKS_IN_1_HOUR)
        bridge_log.block_number polygon_token).filter
      (fun log => toleranceKeep amount log.value &&
        (decide (log.to_address = sender) &&
          decide (log.from_address ≠ ADDRESS_ZERO))) = [swap_log] →
    swapProcessTransaction env.polygonSwapEnv swap_log.transaction_hash
      = Except.ok swaps →
    processCrossChainMevTransactionToEthereum env ethereum_leg polygon_token
      sender amount ethereum_timestamp
      = Except.ok (MatchResult.extraction
          ⟨ethereum_leg,
           ⟨polygon_token, bridge_log.transaction_hash,
            swap_log.transaction_hash,
            (env.getPolygonTransactionFromAndTo swap_log.transaction_hash).1,
            (env.getPolygonTransactionFromAndTo swap_log.transaction_hash).2,
            swaps, none, none⟩,
           PolygonBridgeInteraction.TO_ETHEREUM, amount, false, none,
           none⟩) := by
  intro h1 h2 h3 h4
  have hmatch2 : matchPolygonTransactions
      (env.getTransferLogs
        (bridge_log.block_number - NUMBER_OF_BLOCKS_IN_1_HOUR)
        bridge_log.block_number polygon_token)
      amount false PolygonBridgeInteraction.TO_ETHEREUM sender
      = Except.ok swap_log := by
    apply matchPolygon_ok_of_filter
    rw [List.filter_congr (fun log _ => transferLogPasses_plain_to amount
      sender log)]
    exact h3
  simp only [processCrossChainMevTransactionToEthereum,
    findToEthereumMevTransactions, h1, h2, hmatch2, h4, Bind.bind,
    Except.bind, swapTruthy, Bool.not_false, List.isEmpty_nil, if_true,
    Bool.false_eq_true, if_false, Pure.pure, Except.pure, Option.getD_some]

/-- C2 (witness): the plain-transfer path applied to the concrete
`TO_ETHEREUM` fixture environment. -/
theorem c2_to_ethereum_plain_transfer_witness :
    processCrossChainMevTransactionToEthereum matchEnvToEthereum
      ethereumLegFx "PT" "S" 100 777
      = Except.ok (MatchResult.extraction
          ⟨ethereumLegFx,
           ⟨"PT", "burn", "ptx", "peoa", "pcon", none, none, none⟩,
           PolygonBridgeInteraction.TO_ETHEREUM, 100, false, none, none⟩) :=
  c2_to_ethereum_plain_transfer matchEnvToEthereum ethereumLegFx "PT" "S"
    100 777 burnLogFx preBurnTransferFx none (by rfl) (by rfl) (by decide)
    (by rfl)

/-- C3 (counterexample): in the fixture environment the step-2 search
has two surviving candidate logs, yet the matcher still performs the
fallback bridge-back search and returns the failed-style response
instead of aborting: the code catches `MatchedLogsError` without
distinguishing zero candidates from several. -/
theorem c3_counterexample :
    ((matchEnvFallback.getTransferLogs 150 1350 "PT").filter
      (transferLogPasses 100 false PolygonBridgeInteraction.FROM_ETHEREUM
        "R")).length = 2 ∧
    findFromEthereumMevTransactions matchEnvFallback 100 "PT" "R" 100
      = Except.ok ⟨false, "bridge", none, none, some "back"⟩ := by
  constructor
  · rfl
  · rfl

/-- C3 (amended): in the FROM_ETHEREUM direction the fallback
bridge-out search is performed whenever the step-2 post-bridge swap
search raises the ambiguity error, regardless of whether its surviving
candidate list is empty or has several entries; only a non-ambiguity
error (for example a swap-decoding failure) aborts the candidate. -/
theorem c3_fallback_on_any_ambiguity (env : MatchEnv)
    (polygon_block_number : ℤ) (polygon_token receiver : String)
    (amount : ℕ) (bridge_log : TransferLog) (logs : List TransferLog) :
    matchPolygonTransactions (env.getTransferLogs polygon_block_number
        (polygon_block_number + NUMBER_OF_BLOCKS_IN_1_HOUR) polygon_token)
      amount true PolygonBridgeInteraction.FROM_ETHEREUM receiver
      = Except.ok bridge_log →
    matchPolygonTransactions (env.getTransferLogs bridge_log.block_number
        (bridge_log.block_number + NUMBER_OF_BLOCKS_IN_1_HOUR) polygon_token)
      amount false PolygonBridgeInteraction.FROM_ETHEREUM receiver
      = Except.error (MatchErr.matchedLogs logs) →
    findFromEthereumMevTransactions env polygon_block_number polygon_token
      receiver amount
      = Except.map (fun log => (⟨false, bridge_log.transaction_hash, none,
          none, some log.transaction_hash⟩ : FindMatchResponse))
        (matchPolygonTransactions (env.getTransferLogs
            bridge_log.block_number
            (bridge_log.block_number + NUMBER_OF_BLOCKS_IN_1_HOUR)
            polygon_token)
          amount true PolygonBridgeInteraction.TO_ETHEREUM receiver) := by
  intro h1 h2
  simp only [findFromEthereumMevTransactions, h1, h2, Bind.bind, Except.bind,
    Pure.pure, Except.pure]
  cases hmatch : matchPolygonTransactions (env.getTransferLogs
      bridge_log.block_number
      (bridge_log.block_number + NUMBER_OF_BLOCKS_IN_1_HOUR) polygon_token)
    amount true PolygonBridgeInteraction.TO_ETHEREUM receiver with
  | ok log => simp [Except.map]
  | error e => simp [Except.map]

/-- C3 (witness): the amended theorem applied to the fixture
environment, in which the step-2 ambiguity error carries two candidate
logs. -/
theorem c3_fallback_on_any_ambiguity_witness :
    findFromEthereumMevTransactions matchEnvFallback 100 "PT" "R" 100
      = Except.map (fun log => (⟨false, mintLogFx.transaction_hash, none,
          none, some log.transaction_hash⟩ : FindMatchResponse))
        (matchPolygonTransactions (matchEnvFallback.getTransferLogs
            mintLogFx.block_number
            (mintLogFx.block_number + NUMBER_OF_BLOCKS_IN_1_HOUR) "PT")
          100 true PolygonBridgeInteraction.TO_ETHEREUM "R") :=
  c3_fallback_on_any_ambiguity matchEnvFallback 100 "PT" "R" 100 mintLogFx
    [swapLogFx1, swapLogFx2] (by rfl) (by rfl)

theorem chainBroken_eq_false_iff (l : List Swap) :
    chainBroken l = false ↔ l.Chain' (fun a b => a.token_out = b.token_in) := by
  induction l with
  | nil => simp [chainBroken]
  | cons hd tl ih =>
    cases tl with
    | nil => simp [chainBroken]
    | cons hd2 tl2 =>
      rw [chainBroken]
      simp only [Bool.or_eq_false_iff, decide_eq_false_iff_not, not_not, ih,
        List.chain'_cons]

theorem chainBroken_of_short {l : List Swap} (h : l.length ≤ 1) :
    chainBroken l = false := by
  match l with
  | [] => rfl
  | [_] => rfl
  | a :: b :: rest => simp at h

/-- C6: the swap processor returns `none` (and does not raise) when the
transaction decodes to zero swap events; any returned list is a
permutation of the decoded swaps, sorted by log position, satisfying
the adjacent token-chain invariant; and when several swaps are decoded
whose sorted sequence breaks the token chain, the processor raises
`SwapProcessorError` carrying the transaction id. -/
theorem c6_swap_processor (env : SwapEnv) (transaction_hash : String) :
    (((env.v2Logs transaction_hash).map (processV2Swap env) ++
        (env.v3Logs transaction_hash).map (processV3Swap env)) = [] →
      swapProcessTransaction env transaction_hash = Except.ok none) ∧
    (∀ l, swapProcessTransaction env transaction_hash = Except.ok (some l) →
      l.Perm ((env.v2Logs transaction_hash).map (processV2Swap env) ++
        (env.v3Logs transaction_hash).map (processV3Swap env)) ∧
      l.Pairwise swapEventIndexLe ∧
      l.Chain' (fun a b => a.token_out = b.token_in)) ∧
    ((1 < ((env.v2Logs transaction_hash).map (processV2Swap env) ++
          (env.v3Logs transaction_hash).map (processV3Swap env)).length ∧
      ¬ (List.insertionSort swapEventIndexLe
          ((env.v2Logs transaction_hash).map (processV2Swap env) ++
            (env.v3Logs transaction_hash).map
              (processV3Swap env))).Chain'
          (fun a b => a.token_out = b.token_in)) →
      swapProcessTransaction env transaction_hash
        = Except.error (MatchErr.swapProcessor transaction_hash)) := by
  refine ⟨?_, ?_, ?_⟩
  · intro hnil
    simp only [swapProcessTransaction, hnil]
    rfl
  · intro l hl
    simp only [swapProcessTransaction] at hl
    by_cases hlen : ((env.v2Logs transaction_hash).map (processV2Swap env) ++
        (env.v3Logs transaction_hash).map (processV3Swap env)).length = 0
    · rw [if_pos hlen] at hl
      exact absurd (Except.ok.inj hl) (by simp)
    · rw [if_neg hlen] at hl
      by_cases hbroken : (1 < (List.insertionSort swapEventIndexLe
          ((env.v2Logs transaction_hash).map (processV2Swap env) ++
            (env.v3Logs transaction_hash).map
              (processV3Swap env))).length ∧
          chainBroken (List.insertionSort swapEventIndexLe
            ((env.v2Logs transaction_hash).map (processV2Swap env) ++
              (env.v3Logs transaction_hash).map (processV3Swap env))) = true)
      · rw [if_pos hbroken] at hl
        exact absurd hl (by simp)
      · rw [if_neg hbroken] at hl
        have hsort : List.insertionSort swapEventIndexLe
            ((env.v2Logs transaction_hash).map (processV2Swap env) ++
              (env.v3Logs transaction_hash).map (processV3Swap env)) = l :=
          Option.some.inj (Except.ok.inj hl)
        subst hsort
        refine ⟨List.perm_insertionSort _ _, List.sorted_insertionSort _ _,
          ?_⟩
        rw [not_and_or] at hbroken
        rcases hbroken with hshort | hfine
        · rw [← chainBroken_eq_false_iff]
          apply chainBroken_of_short
          omega
        · rw [← chainBroken_eq_false_iff]
          simpa using hfine
  · rintro ⟨hlen, hchain⟩
    have hne : ((env.v2Logs transaction_hash).map (processV2Swap env) ++
        (env.v3Logs transaction_hash).map (processV3Swap env)).length ≠ 0 := by
      omega
    have hbroken : chainBroken (List.insertionSort swapEventIndexLe
        ((env.v2Logs transaction_hash).map (processV2Swap env) ++
          (env.v3Logs transaction_hash).map (processV3Swap env))) = true := by
      cases hcb : chainBroken (List.insertionSort swapEventIndexLe
          ((env.v2Logs transaction_hash).map (processV2Swap env) ++
            (env.v3Logs transaction_hash).map (processV3Swap env))) with
      | false => exact absurd ((chainBroken_eq_false_iff _).1 hcb) hchain
      | true => rfl
    have hlensort : (List.insertionSort swapEventIndexLe
        ((env.v2Logs transaction_hash).map (processV2Swap env) ++
          (env.v3Logs transaction_hash).map (processV3Swap env))).length
        = ((env.v2Logs transaction_hash).map (processV2Swap env) ++
          (env.v3Logs transaction_hash).map (processV3Swap env)).length :=
      (List.perm_insertionSort _ _).length_eq
    simp only [swapProcessTransaction]
    rw [if_neg hne, if_pos ⟨by omega, hbroken⟩]

/-- C6 (witness): the processor applied to a transaction holding
exactly one V2 swap event. -/
theorem c6_swap_processor_witness :
    ([(⟨"A", "B", 5, 7, 3⟩ : Swap)]).Perm
      ((swapEnvSingle.v2Logs "tx").map (processV2Swap swapEnvSingle) ++
        (swapEnvSingle.v3Logs "tx").map (processV3Swap swapEnvSingle)) ∧
    ([(⟨"A", "B", 5, 7, 3⟩ : Swap)]).Pairwise swapEventIndexLe ∧
    ([(⟨"A", "B", 5, 7, 3⟩ : Swap)]).Chain'
      (fun a b => a.token_out = b.token_in) :=
  (c6_swap_processor swapEnvSingle "tx").2.1 [⟨"A", "B", 5, 7, 3⟩] (by rfl)

theorem matchCrossChain_inner_go (env : MatchEnv) (block_timestamp : ℕ)
    (l : List Transaction)
    (acc : List CrossChainMevExtraction × List CrossChainMevFailedExtraction) :
    l.foldl (fun acc transaction =>
      match processCandidate env block_timestamp transaction with
      | Except.ok (MatchResult.extraction e) => (acc.1 ++ [e], acc.2)
      | Except.ok (MatchResult.failed f) => (acc.1, acc.2 ++ [f])
      | Except.error _ => acc) acc
    = (acc.1 ++ l.filterMap (fun t =>
         match processCandidate env block_timestamp t with
         | Except.ok (MatchResult.extraction e) => some e
         | _ => none),
       acc.2 ++ l.filterMap (fun t =>
         match processCandidate env block_timestamp t with
         | Except.ok (MatchResult.failed f) => some f
         | _ => none)) := by
  induction l generalizing acc with
  | nil => simp
  | cons hd tl ih =>
    simp only [List.foldl_cons, List.filterMap_cons]
    cases hp : processCandidate env block_timestamp hd with
    | ok r =>
      cases r with
      | extraction e =>
        rw [ih]
        try simp
      | failed f =>
        rw [ih]
        try simp
    | error er =>
      rw [ih]
      try simp

theorem matchCrossChain_filterMap (env : MatchEnv)
    (block_to_cross_chain_mev_transactions : List (ℕ × List Transaction)) :
    matchCrossChainMevTransactions env block_to_cross_chain_mev_transactions
    = (block_to_cross_chain_mev_transactions.flatMap (fun entry =>
         entry.2.filterMap (fun t =>
           match processCandidate env (env.getBlockTimestamp entry.1) t with
           | Except.ok (MatchResult.extraction e) => some e
           | _ => none)),
       block_to_cross_chain_mev_transactions.flatMap (fun entry =>
         entry.2.filterMap (fun t =>
           match processCandidate env (env.getBlockTimestamp entry.1) t with
           | Except.ok (MatchResult.failed f) => some f
           | _ => none))) := by
  rw [matchCrossChainMevTransactions]
  have hgo : ∀ (blocks : List (ℕ × List Transaction))
      (acc : List CrossChainMevExtraction ×
        List CrossChainMevFailedExtraction),
      blocks.foldl (fun acc entry =>
        entry.2.foldl (fun acc transaction =>
          match processCandidate env (env.getBlockTimestamp entry.1)
              transaction with
          | Except.ok (MatchResult.extraction e) => (acc.1 ++ [e], acc.2)
          | Except.ok (MatchResult.failed f) => (acc.1, acc.2 ++ [f])
          | Except.error _ => acc) acc) acc
      = (acc.1 ++ blocks.flatMap (fun entry =>
           entry.2.filterMap (fun t =>
             match processCandidate env (env.getBlockTimestamp entry.1) t with
             | Except.ok (MatchResult.extraction e) => some e
             | _ => none)),
         acc.2 ++ blocks.flatMap (fun entry =>
           entry.2.filterMap (fun t =>
             match processCandidate env (env.getBlockTimestamp entry.1) t with
             | Except.ok (MatchResult.failed f) => some f
             | _ => none))) := by
    intro blocks
    induction blocks with
    | nil => intro acc; simp
    | cons hd tl ih =>
      intro acc
      simp only [List.foldl_cons, List.flatMap_cons]
      rw [matchCrossChain_inner_go, ih]
      simp [List.append_assoc]
  simpa using hgo block_to_cross_chain_mev_transactions ([], [])

theorem swapProcess_ne_some_nil {env : SwapEnv} {transaction_hash : String}
    {s : Option (List Swap)}
    (h : swapProcessTransaction env transaction_hash = Except.ok s) :
    s ≠ some ([] : List Swap) := by
  simp only [swapProcessTransaction] at h
  by_cases hlen : ((env.v2Logs transaction_hash).map (processV2Swap env) ++
      (env.v3Logs transaction_hash).map (processV3Swap env)).length = 0
  · rw [if_pos hlen] at h
    have := Except.ok.inj h
    subst this
    simp
  · rw [if_neg hlen] at h
    by_cases hbroken : (1 < (List.insertionSort swapEventIndexLe
        ((env.v2Logs transaction_hash).map (processV2Swap env) ++
          (env.v3Logs transaction_hash).map (processV3Swap env))).length ∧
        chainBroken (List.insertionSort swapEventIndexLe
          ((env.v2Logs transaction_hash).map (processV2Swap env) ++
            (env.v3Logs transaction_hash).map (processV3Swap env))) = true)
    · rw [if_pos hbroken] at h
      exact absurd h (by simp)
    · rw [if_neg hbroken] at h
      have hs := Except.ok.inj h
      subst hs
      intro hcontra
      have hnil := Option.some.inj hcontra
      have hlensort : (List.insertionSort swapEventIndexLe
          ((env.v2Logs transaction_hash).map (processV2Swap env) ++
            (env.v3Logs transaction_hash).map (processV3Swap env))).length
          = ((env.v2Logs transaction_hash).map (processV2Swap env) ++
            (env.v3Logs transaction_hash).map (processV3Swap env)).length :=
        (List.perm_insertionSort _ _).length_eq
      rw [hnil] at hlensort
      simp only [List.length_nil, List.length_append, List.length_map]
        at hlensort hlen
      omega

theorem swapTruthy_ne_nil {s : Option (List Swap)} (h : swapTruthy s = true) :
    s ≠ some ([] : List Swap) := by
  cases s with
  | none => simp
  | some l =>
    intro hc
    rw [Option.some.inj hc] at h
    simp [swapTruthy] at h

theorem findFrom_swap_ne_nil {env : MatchEnv} {polygon_block_number : ℤ}
    {polygon_token receiver : String} {amount : ℕ} {resp : FindMatchResponse}
    (h : findFromEthereumMevTransactions env polygon_block_number
      polygon_token receiver amount = Except.ok resp) :
    resp.swap ≠ some ([] : List Swap) := by
  cases h1 : matchPolygonTransactions (env.getTransferLogs
      polygon_block_number
      (polygon_block_number + NUMBER_OF_BLOCKS_IN_1_HOUR) polygon_token)
    amount true PolygonBridgeInteraction.FROM_ETHEREUM receiver with
  | error e =>
    rw [show findFromEthereumMevTransactions env polygon_block_number
        polygon_token receiver amount = Except.error e by
      simp only [findFromEthereumMevTransactions, Bind.bind, Except.bind,
        h1]] at h
    exact absurd h (by simp)
  | ok bridge_log =>
    cases h2 : matchPolygonTransactions (env.getTransferLogs
        bridge_log.block_number
        (bridge_log.block_number + NUMBER_OF_BLOCKS_IN_1_HOUR) polygon_token)
      amount false PolygonBridgeInteraction.FROM_ETHEREUM receiver with
    | ok swap_log =>
      cases h3 : swapProcessTransaction env.polygonSwapEnv
          swap_log.transaction_hash with
      | ok swap =>
        rw [show findFromEthereumMevTransactions env polygon_block_number
            polygon_token receiver amount = Except.ok
              ⟨true, bridge_log.transaction_hash,
               some swap_log.transaction_hash, swap, none⟩ by
          simp only [findFromEthereumMevTransactions, Bind.bind, Except.bind,
            h1, h2, h3]] at h
        obtain rfl := Except.ok.inj h
        exact swapProcess_ne_some_nil h3
      | error e =>
        cases h4 : matchPolygonTransactions (env.getTransferLogs
            bridge_log.block_number
            (bridge_log.block_number + NUMBER_OF_BLOCKS_IN_1_HOUR)
            polygon_token)
          amount true PolygonBridgeInteraction.TO_ETHEREUM receiver with
        | ok back_log =>
          cases e with
          | matchedLogs ls =>
            rw [show findFromEthereumMevTransactions env polygon_block_number
                polygon_token receiver amount = Except.ok
                  ⟨false, bridge_log.transaction_hash, none, none,
                   some back_log.transaction_hash⟩ by
              simp only [findFromEthereumMevTransactions, Bind.bind,
                Except.bind, h1, h2, h3, h4]] at h
            obtain rfl := Except.ok.inj h
            simp
          | swapProcessor th =>
            rw [show findFromEthereumMevTransactions env polygon_block_number
                polygon_token receiver amount
                = Except.error (MatchErr.swapProcessor th) by
              simp only [findFromEthereumMevTransactions, Bind.bind,
                Except.bind, h1, h2, h3]] at h
            exact absurd h (by simp)
          | ethereumService =>
            rw [show findFromEthereumMevTransactions env polygon_block_number
                polygon_token receiver amount
                = Except.error MatchErr.ethereumService by
              simp only [findFromEthereumMevTransactions, Bind.bind,
                Except.bind, h1, h2, h3]] at h
            exact absurd h (by simp)
          | polygonBridgeInteractor =>
            rw [show findFromEthereumMevTransactions env polygon_block_number
                polygon_token receiver amount
                = Except.error MatchErr.polygonBridgeInteractor by
              simp only [findFromEthereumMevTransactions, Bind.bind,
                Except.bind, h1, h2, h3]] at h
            exact absurd h (by simp)
          | other =>
            rw [show findFromEthereumMevTransactions env polygon_block_number
                polygon_token receiver amount
                = Except.error MatchErr.other by
              simp only [findFromEthereumMevTransactions, Bind.bind,
                Except.bind, h1, h2, h3]] at h
            exact absurd h (by simp)
        | error e2 =>
          cases e with
          | matchedLogs ls =>
            rw [show findFromEthereumMevTransactions env polygon_block_number
                polygon_token receiver amount = Except.error e2 by
              simp only [findFromEthereumMevTransactions, Bind.bind,
                Except.bind, h1, h2, h3, h4]] at h
            exact absurd h (by simp)
          | swapProcessor th =>
            rw [show findFromEthereumMevTransactions env polygon_block_number
                polygon_token receiver amount
                = Except.error (MatchErr.swapProcessor th) by
              simp only [findFromEthereumMevTransactions, Bind.bind,
                Except.bind, h1, h2, h3]] at h
            exact absurd h (by simp)
          | ethereumService =>
            rw [show findFromEthereumMevTransactions env polygon_block_number
                polygon_token receiver amount
                = Except.error MatchErr.ethereumService by
              simp only [findFromEthereumMevTransactions, Bind.bind,
                Except.bind, h1, h2, h3]] at h
            exact absurd h (by simp)
          | polygonBridgeInteractor =>
            rw [show findFromEthereumMevTransactions env polygon_block_number
                polygon_token receiver amount
                = Except.error MatchErr.polygonBridgeInteractor by
              simp only [findFromEthereumMevTransactions, Bind.bind,
                Except.bind, h1, h2, h3]] at h
            exact absurd h (by simp)
          | other =>
            rw [show findFromEthereumMevTransactions env polygon_block_number
                polygon_token receiver amount
                = Except.error MatchErr.other by
              simp only [findFromEthereumMevTransactions, Bind.bind,
                Except.bind, h1, h2, h3]] at h
            exact absurd h (by simp)
    | error e =>
      cases h4 : matchPolygonTransactions (env.getTransferLogs
          bridge_log.block_number
          (bridge_log.block_number + NUMBER_OF_BLOCKS_IN_1_HOUR)
          polygon_token)
        amount true PolygonBridgeInteraction.TO_ETHEREUM receiver with
      | ok back_log =>
        cases e with
        | matchedLogs ls =>
          rw [show findFromEthereumMevTransactions env polygon_block_number
              polygon_token receiver amount = Except.ok
                ⟨false, bridge_log.transaction_hash, none, none,
                 some back_log.transaction_hash⟩ by
            simp only [findFromEthereumMevTransactions, Bind.bind,
              Except.bind, h1, h2, h4]] at h
          obtain rfl := Except.ok.inj h
          simp
        | swapProcessor th =>
          rw [show findFromEthereumMevTransactions env polygon_block_number
              polygon_token receiver amount
              = Except.error (MatchErr.swapProcessor th) by
            simp only [findFromEthereumMevTransactions, Bind.bind,
              Except.bind, h1, h2]] at h
          exact absurd h (by simp)
        | ethereumService =>
          rw [show findFromEthereumMevTransactions env polygon_block_number
              polygon_token receiver amount
              = Except.error MatchErr.ethereumService by
            simp only [findFromEthereumMevTransactions, Bind.bind,
              Except.bind, h1, h2]] at h
          exact absurd h (by simp)
        | polygonBridgeInteractor =>
          rw [show findFromEthereumMevTransactions env polygon_block_number
              polygon_token receiver amount
              = Except.error MatchErr.polygonBridgeInteractor by
            simp only [findFromEthereumMevTransactions, Bind.bind,
              Except.bind, h1, h2]] at h
          exact absurd h (by simp)
        | other =>
          rw [show findFromEthereumMevTransactions env polygon_block_number
              polygon_token receiver amount = Except.error MatchErr.other by
            simp only [findFromEthereumMevTransactions, Bind.bind,
              Except.bind, h1, h2]] at h
          exact absurd h (by simp)
      | error e2 =>
        cases e with
        | matchedLogs ls =>
          rw [show findFromEthereumMevTransactions env polygon_block_number
              polygon_token receiver amount = Except.error e2 by
            simp only [findFromEthereumMevTransactions, Bind.bind,
              Except.bind, h1, h2, h4]] at h
          exact absurd h (by simp)
        | swapProcessor th =>
          rw [show findFromEthereumMevTransactions env polygon_block_number
              polygon_token receiver amount
              = Except.error (MatchErr.swapProcessor th) by
            simp only [findFromEthereumMevTransactions, Bind.bind,
              Except.bind, h1, h2]] at h
          exact absurd h (by simp)
        | ethereumService =>
          rw [show findFromEthereumMevTransactions env polygon_block_number
              polygon_token receiver amount
              = Except.error MatchErr.ethereumService by
            simp only [findFromEthereumMevTransactions, Bind.bind,
              Except.bind, h1, h2]] at h
          exact absurd h (by simp)
        | polygonBridgeInteractor =>
          rw [show findFromEthereumMevTransactions env polygon_block_number
              polygon_token receiver amount
              = Except.error MatchErr.polygonBridgeInteractor by
            simp only [findFromEthereumMevTransactions, Bind.bind,
              Except.bind, h1, h2]] at h
          exact absurd h (by simp)
        | other =>
          rw [show findFromEthereumMevTransactions env polygon_block_number
              polygon_token receiver amount = Except.error MatchErr.other by
            simp only [findFromEthereumMevTransactions, Bind.bind,
              Except.bind, h1, h2]] at h
          exact absurd h (by simp)

theorem findTo_swap_ne_nil {env : MatchEnv} {polygon_block_number : ℤ}
    {polygon_token sender : String} {amount : ℕ} {resp : FindMatchResponse}
    (h : findToEthereumMevTransactions env polygon_block_number
      polygon_token sender amount = Except.ok resp) :
    resp.swap ≠ some ([] : List Swap) := by
  cases h1 : matchPolygonTransactions (env.getTransferLogs
      (polygon_block_number - NUMBER_OF_BLOCKS_IN_5_HOURS)
      polygon_block_number polygon_token)
    amount true PolygonBridgeInteraction.TO_ETHEREUM sender with
  | error e =>
    rw [show findToEthereumMevTransactions env polygon_block_number polygon_token sender amount = Except.error e by
      simp only [findToEthereumMevTransactions, Bind.bind, Except.bind, h1]] at h
    exact absurd h (by simp)
  | ok bridge_log =>
    cases h2 : swapProcessTransaction env.polygonSwapEnv
        bridge_log.transaction_hash with
    | error e =>
      rw [show findToEthereumMevTransactions env polygon_block_number polygon_token sender amount = Except.error e by
        simp only [findToEthereumMevTransactions, Bind.bind, Except.bind, h1, h2]] at h
      exact absurd h (by simp)
    | ok swap =>
      cases htr : swapTruthy swap with
      | true =>
        rw [show findToEthereumMevTransactions env polygon_block_number polygon_token sender amount = Except.ok
            ⟨true, bridge_log.transaction_hash,
             some bridge_log.transaction_hash, swap, none⟩ by
          simp only [findToEthereumMevTransactions, Bind.bind, Except.bind, h1, h2, htr, if_true]] at h
        obtain rfl := Except.ok.inj h
        exact swapProcess_ne_some_nil h2
      | false =>
        cases h3 : matchPolygonTransactions (env.getTransferLogs
            (bridge_log.block_number - NUMBER_OF_BLOCKS_IN_1_HOUR)
            bridge_log.block_number polygon_token)
          amount false PolygonBridgeInteraction.TO_ETHEREUM sender with
        | ok swap_log =>
          cases h4 : swapProcessTransaction env.polygonSwapEnv
              swap_log.transaction_hash with
          | ok swap2 =>
            rw [show findToEthereumMevTransactions env polygon_block_number polygon_token sender amount = Except.ok
                ⟨true, bridge_log.transaction_hash,
                 some swap_log.transaction_hash, swap2, none⟩ by
              simp only [findToEthereumMevTransactions, Bind.bind, Except.bind, h1, h2, h3, h4, htr,
                Bool.false_eq_true, if_false]] at h
            obtain rfl := Except.ok.inj h
            exact swapProcess_ne_some_nil h4
          | error e =>
            cases h5 : matchPolygonTransactions (env.getTransferLogs
                (bridge_log.block_number - NUMBER_OF_BLOCKS_IN_1_HOUR)
                bridge_log.block_number polygon_token)
              amount true PolygonBridgeInteraction.FROM_ETHEREUM sender with
            | ok back_log =>
              cases e with
              | matchedLogs ls =>
                rw [show findToEthereumMevTransactions env polygon_block_number polygon_token sender amount = Except.ok
                    ⟨false, bridge_log.transaction_hash, none, none,
                     some back_log.transaction_hash⟩ by
                  simp only [findToEthereumMevTransactions, Bind.bind, Except.bind, h1, h2, h3, h4, h5, htr,
                    Bool.false_eq_true, if_false]] at h
                obtain rfl := Except.ok.inj h
                simp
              | swapProcessor th =>
                rw [show findToEthereumMevTransactions env polygon_block_number polygon_token sender amount = Except.error (MatchErr.swapProcessor th) by
                  simp only [findToEthereumMevTransactions, Bind.bind, Except.bind, h1, h2, h3, h4, htr,
                    Bool.false_eq_true, if_false]] at h
                exact absurd h (by simp)
              | ethereumService =>
                rw [show findToEthereumMevTransactions env polygon_block_number polygon_token sender amount = Except.error (MatchErr.ethereumService) by
                  simp only [findToEthereumMevTransactions, Bind.bind, Except.bind, h1, h2, h3, h4, htr,
                    Bool.false_eq_true, if_false]] at h
                exact absurd h (by simp)
              | polygonBridgeInteractor =>
                rw [show findToEthereumMevTransactions env polygon_block_number polygon_token sender amount = Except.error (MatchErr.polygonBridgeInteractor) by
                  simp only [findToEthereumMevTransactions, Bind.bind, Except.bind, h1, h2, h3, h4, htr,
                    Bool.false_eq_true, if_false]] at h
                exact absurd h (by simp)
              | other =>
                rw [show findToEthereumMevTransactions env polygon_block_number polygon_token sender amount = Except.error (MatchErr.other) by
                  simp only [findToEthereumMevTransactions, Bind.bind, Except.bind, h1, h2, h3, h4, htr,
                    Bool.false_eq_true, if_false]] at h
                exact absurd h (by simp)
            | error e2 =>
              cases e with
              | matchedLogs ls =>
                rw [show findToEthereumMevTransactions env polygon_block_number polygon_token sender amount = Except.error e2 by
                  simp only [findToEthereumMevTransactions, Bind.bind, Except.bind, h1, h2, h3, h4, h5, htr,
                    Bool.false_eq_true, if_false]] at h
                exact absurd h (by simp)
              | swapProcessor th =>
                rw [show findToEthereumMevTransactions env polygon_block_number polygon_token sender amount = Except.error (MatchErr.swapProcessor th) by
                  simp only [findToEthereumMevTransactions, Bind.bind, Except.bind, h1, h2, h3, h4, htr,
                    Bool.false_eq_true, if_false]] at h
                exact absurd h (by simp)
              | ethereumService =>
                rw [show findToEthereumMevTransactions env polygon_block_number polygon_token sender amount = Except.error (MatchErr.ethereumService) by
                  simp only [findToEthereumMevTransactions, Bind.bind, Except.bind, h1, h2, h3, h4, htr,
                    Bool.false_eq_true, if_false]] at h
                exact absurd h (by simp)
              | polygonBridgeInteractor =>
                rw [show findToEthereumMevTransactions env polygon_block_number polygon_token sender amount = Except.error (MatchErr.polygonBridgeInteractor) by
                  simp only [findToEthereumMevTransactions, Bind.bind, Except.bind, h1, h2, h3, h4, htr,
                    Bool.false_eq_true, if_false]] at h
                exact absurd h (by simp)
              | other =>
                rw [show findToEthereumMevTransactions env polygon_block_number polygon_token sender amount = Except.error (MatchErr.other) by
                  simp only [findToEthereumMevTransactions, Bind.bind, Except.bind, h1, h2, h3, h4, htr,
                    Bool.false_eq_true, if_false]] at h
                exact absurd h (by simp)
        | error e =>
          cases h5 : matchPolygonTransactions (env.getTransferLogs
              (bridge_log.block_number - NUMBER_OF_BLOCKS_IN_1_HOUR)
              bridge_log.block_number polygon_token)
            amount true PolygonBridgeInteraction.FROM_ETHEREUM sender with
          | ok back_log =>
            cases e with
            | matchedLogs ls =>
              rw [show findToEthereumMevTransactions env polygon_block_number polygon_token sender amount = Except.ok
                  ⟨false, bridge_log.transaction_hash, none, none,
                   some back_log.transaction_hash⟩ by
                simp only [findToEthereumMevTransactions, Bind.bind, Except.bind, h1, h2, h3, h5, htr,
                  Bool.false_eq_true, if_false]] at h
              obtain rfl := Except.ok.inj h
              simp
            | swapProcessor th =>
              rw [show findToEthereumMevTransactions env polygon_block_number polygon_token sender amount = Except.error (MatchErr.swapProcessor th) by
                simp only [findToEthereumMevTransactions, Bind.bind, Except.bind, h1, h2, h3, htr,
                  Bool.false_eq_true, if_false]] at h
              exact absurd h (by simp)
            | ethereumService =>
              rw [show findToEthereumMevTransactions env polygon_block_number polygon_token sender amount = Except.error (MatchErr.ethereumService) by
                simp only [findToEthereumMevTransactions, Bind.bind, Except.bind, h1, h2, h3, htr,
                  Bool.false_eq_true, if_false]] at h
              exact absurd h (by simp)
            | polygonBridgeInteractor =>
              rw [show findToEthereumMevTransactions env polygon_block_number polygon_token sender amount = Except.error (MatchErr.polygonBridgeInteractor) by
                simp only [findToEthereumMevTransactions, Bind.bind, Except.bind, h1, h2, h3, htr,
                  Bool.false_eq_true, if_false]] at h
              exact absurd h (by simp)
            | other =>
              rw [show findToEthereumMevTransactions env polygon_block_number polygon_token sender amount = Except.error (MatchErr.other) by
                simp only [findToEthereumMevTransactions, Bind.bind, Except.bind, h1, h2, h3, htr,
                  Bool.false_eq_true, if_false]] at h
              exact absurd h (by simp)
          | error e2 =>
            cases e with
            | matchedLogs ls =>
              rw [show findToEthereumMevTransactions env polygon_block_number polygon_token sender amount = Except.error e2 by
                simp only [findToEthereumMevTransactions, Bind.bind, Except.bind, h1, h2, h3, h5, htr,
                  Bool.false_eq_true, if_false]] at h
              exact absurd h (by simp)
            | swapProcessor th =>
              rw [show findToEthereumMevTransactions env polygon_block_number polygon_token sender amount = Except.error (MatchErr.swapProcessor th) by
                simp only [findToEthereumMevTransactions, Bind.bind, Except.bind, h1, h2, h3, htr,
                  Bool.false_eq_true, if_false]] at h
              exact absurd h (by simp)
            | ethereumService =>
              rw [show findToEthereumMevTransactions env polygon_block_number polygon_token sender amount = Except.error (MatchErr.ethereumService) by
                simp only [findToEthereumMevTransactions, Bind.bind, Except.bind, h1, h2, h3, htr,
                  Bool.false_eq_true, if_false]] at h
              exact absurd h (by simp)
            | polygonBridgeInteractor =>
              rw [show findToEthereumMevTransactions env polygon_block_number polygon_token sender amount = Except.error (MatchErr.polygonBridgeInteractor) by
                simp only [findToEthereumMevTransactions, Bind.bind, Except.bind, h1, h2, h3, htr,
                  Bool.false_eq_true, if_false]] at h
              exact absurd h (by simp)
            | other =>
              rw [show findToEthereumMevTransactions env polygon_block_number polygon_token sender amount = Except.error (MatchErr.other) by
                simp only [findToEthereumMevTransactions, Bind.bind, Except.bind, h1, h2, h3, htr,
                  Bool.false_eq_true, if_false]] at h
              exact absurd h (by simp)

/-- C8: the batch matcher is a total function of its inputs: it returns
the pair of the successful extractions and the failed extractions
produced by the per-candidate processing, in input order; any candidate
whose processing raises an error (ambiguous match, inconsistent swap
chain, token mapping not found, missing bridge-operation log, or any
unexpected exception) contributes to neither output list, and
processing always continues with the remaining candidates. -/
theorem c8_batch_error_isolation (env : MatchEnv)
    (block_to_cross_chain_mev_transactions : List (ℕ × List Transaction)) :
    matchCrossChainMevTransactions env block_to_cross_chain_mev_transactions
    = (block_to_cross_chain_mev_transactions.flatMap (fun entry =>
         entry.2.filterMap (fun t =>
           match processCandidate env (env.getBlockTimestamp entry.1) t with
           | Except.ok (MatchResult.extraction e) => some e
           | _ => none)),
       block_to_cross_chain_mev_transactions.flatMap (fun entry =>
         entry.2.filterMap (fun t =>
           match processCandidate env (env.getBlockTimestamp entry.1) t with
           | Except.ok (MatchResult.failed f) => some f
           | _ => none))) :=
  matchCrossChain_filterMap env block_to_cross_chain_mev_transactions

theorem processFromEthereum_invariant {env : MatchEnv}
    {ethereum_leg : EthereumLeg} {polygon_token receiver : String}
    {amount ethereum_timestamp : ℕ} {r : MatchResult}
    (h : processCrossChainMevTransactionFromEthereum env ethereum_leg
      polygon_token receiver amount ethereum_timestamp = Except.ok r) :
    (∀ e, r = MatchResult.extraction e →
      e.ethereum_leg = ethereum_leg ∧ e.polygon_leg.swaps ≠ some []) ∧
    (∀ f, r = MatchResult.failed f → f.ethereum_leg = ethereum_leg) := by
  cases h4 : findFromEthereumMevTransactions env
      (env.findPolygonBlockAfterTimestamp ethereum_timestamp) polygon_token
      receiver amount with
  | error e =>
    rw [show processCrossChainMevTransactionFromEthereum env ethereum_leg
        polygon_token receiver amount ethereum_timestamp = Except.error e by
      simp only [processCrossChainMevTransactionFromEthereum, Bind.bind,
        Except.bind, h4]] at h
    exact absurd h (by simp)
  | ok resp =>
    cases harb : resp.is_arbitrage with
    | true =>
      rw [show processCrossChainMevTransactionFromEthereum env ethereum_leg
          polygon_token receiver amount ethereum_timestamp
          = Except.ok (MatchResult.extraction
            ⟨ethereum_leg,
             ⟨polygon_token, resp.bridge_transaction_hash,
              resp.swap_transaction_hash.getD "",
              (env.getPolygonTransactionFromAndTo
                (resp.swap_transaction_hash.getD "")).1,
              (env.getPolygonTransactionFromAndTo
                (resp.swap_transaction_hash.getD "")).2,
              resp.swap, none, none⟩,
             PolygonBridgeInteraction.FROM_ETHEREUM, amount, false, none,
             none⟩) by
        simp only [processCrossChainMevTransactionFromEthereum, Bind.bind,
          Except.bind, h4, harb, if_true]] at h
      obtain rfl := Except.ok.inj h
      constructor
      · intro e he
        obtain rfl := MatchResult.extraction.inj he
        exact ⟨rfl, findFrom_swap_ne_nil h4⟩
      · intro f hf
        exact absurd hf (by simp)
    | false =>
      rw [show processCrossChainMevTransactionFromEthereum env ethereum_leg
          polygon_token receiver amount ethereum_timestamp
          = Except.ok (MatchResult.failed
            ⟨ethereum_leg, resp.bridge_transaction_hash,
             resp.second_bridge_transaction_hash.getD "",
             PolygonBridgeInteraction.FROM_ETHEREUM, amount⟩) by
        simp only [processCrossChainMevTransactionFromEthereum, Bind.bind,
          Except.bind, h4, harb, Bool.false_eq_true, if_false]] at h
      obtain rfl := Except.ok.inj h
      constructor
      · intro e he
        exact absurd he (by simp)
      · intro f hf
        obtain rfl := MatchResult.failed.inj hf
        rfl

theorem processToEthereum_invariant {env : MatchEnv}
    {ethereum_leg : EthereumLeg} {polygon_token sender : String}
    {amount ethereum_timestamp : ℕ} {r : MatchResult}
    (h : processCrossChainMevTransactionToEthereum env ethereum_leg
      polygon_token sender amount ethereum_timestamp = Except.ok r) :
    (∀ e, r = MatchResult.extraction e →
      e.ethereum_leg = ethereum_leg ∧ e.polygon_leg.swaps ≠ some []) ∧
    (∀ f, r = MatchResult.failed f → f.ethereum_leg = ethereum_leg) := by
  cases h4 : findToEthereumMevTransactions env
      (env.findPolygonBlockBeforeTimestamp ethereum_timestamp) polygon_token
      sender amount with
  | error e =>
    rw [show processCrossChainMevTransactionToEthereum env ethereum_leg
        polygon_token sender amount ethereum_timestamp = Except.error e by
      simp only [processCrossChainMevTransactionToEthereum, Bind.bind,
        Except.bind, h4]] at h
    exact absurd h (by simp)
  | ok resp =>
    cases harb : resp.is_arbitrage with
    | true =>
      rw [show processCrossChainMevTransactionToEthereum env ethereum_leg
          polygon_token sender amount ethereum_timestamp
          = Except.ok (MatchResult.extraction
            ⟨ethereum_leg,
             ⟨polygon_token, resp.bridge_transaction_hash,
              resp.swap_transaction_hash.getD "",
              (env.getPolygonTransactionFromAndTo
                (resp.swap_transaction_hash.getD "")).1,
              (env.getPolygonTransactionFromAndTo
                (resp.swap_transaction_hash.getD "")).2,
              resp.swap, none, none⟩,
             PolygonBridgeInteraction.TO_ETHEREUM, amount, false, none,
             none⟩) by
        simp only [processCrossChainMevTransactionToEthereum, Bind.bind,
          Except.bind, h4, harb, if_true]] at h
      obtain rfl := Except.ok.inj h
      constructor
      · intro e he
        obtain rfl := MatchResult.extraction.inj he
        exact ⟨rfl, findTo_swap_ne_nil h4⟩
      · intro f hf
        exact absurd hf (by simp)
    | false =>
      rw [show processCrossChainMevTransactionToEthereum env ethereum_leg
          polygon_token sender amount ethereum_timestamp
          = Except.ok (MatchResult.failed
            ⟨ethereum_leg, resp.second_bridge_transaction_hash.getD "",
             resp.bridge_transaction_hash,
             PolygonBridgeInteraction.TO_ETHEREUM, amount⟩) by
        simp only [processCrossChainMevTransactionToEthereum, Bind.bind,
          Except.bind, h4, harb, Bool.false_eq_true, if_false]] at h
      obtain rfl := Except.ok.inj h
      constructor
      · intro e he
        exact absurd he (by simp)
      · intro f hf
        obtain rfl := MatchResult.failed.inj hf
        rfl

theorem matchFromEthereum_invariant {env : MatchEnv}
    {transaction : Transaction} {searcher_eoa searcher_contract : String}
    {ethereum_swap_info : Option (List Swap)} {block_timestamp : ℕ}
    {r : MatchResult}
    (h : matchFromEthereum env transaction searcher_eoa searcher_contract
      ethereum_swap_info block_timestamp = Except.ok r) :
    (∀ e, r = MatchResult.extraction e →
      e.ethereum_leg.swaps = ethereum_swap_info ∧
      e.polygon_leg.swaps ≠ some []) ∧
    (∀ f, r = MatchResult.failed f →
      f.ethereum_leg.swaps = ethereum_swap_info) := by
  cases h2 : env.getFromEthereumBridgeOperationInformation
      transaction.transaction_hash with
  | error e =>
    rw [show matchFromEthereum env transaction searcher_eoa searcher_contract
        ethereum_swap_info block_timestamp = Except.error e by
      simp only [matchFromEthereum, Bind.bind, Except.bind, h2]] at h
    exact absurd h (by simp)
  | ok info =>
    obtain ⟨ethereum_token, receiver, amount⟩ := info
    cases h3 : env.getPolygonMappedToken ethereum_token with
    | error e =>
      rw [show matchFromEthereum env transaction searcher_eoa
          searcher_contract ethereum_swap_info block_timestamp
          = Except.error e by
        simp only [matchFromEthereum, Bind.bind, Except.bind, h2, h3]] at h
      exact absurd h (by simp)
    | ok polygon_token =>
      rw [show matchFromEthereum env transaction searcher_eoa
          searcher_contract ethereum_swap_info block_timestamp
          = processCrossChainMevTransactionFromEthereum env
            ⟨ethereum_token, transaction.transaction_hash, searcher_eoa,
             searcher_contract, ethereum_swap_info, none⟩ polygon_token
            receiver amount block_timestamp by
        simp only [matchFromEthereum, Bind.bind, Except.bind, h2, h3]] at h
      obtain ⟨hext, hfail⟩ := processFromEthereum_invariant h
      constructor
      · intro e he
        obtain ⟨hleg, hpoly⟩ := hext e he
        exact ⟨by rw [hleg], hpoly⟩
      · intro f hf
        rw [hfail f hf]

theorem matchToEthereum_invariant {env : MatchEnv}
    {transaction : Transaction} {searcher_eoa searcher_contract : String}
    {ethereum_swap_info : Option (List Swap)} {block_timestamp : ℕ}
    {r : MatchResult}
    (h : matchToEthereum env transaction searcher_eoa searcher_contract
      ethereum_swap_info block_timestamp = Except.ok r) :
    (∀ e, r = MatchResult.extraction e →
      e.ethereum_leg.swaps = ethereum_swap_info ∧
      e.polygon_leg.swaps ≠ some []) ∧
    (∀ f, r = MatchResult.failed f →
      f.ethereum_leg.swaps = ethereum_swap_info) := by
  cases h2 : env.getToEthereumBridgeOperationInformation
      transaction.transaction_hash with
  | error e =>
    rw [show matchToEthereum env transaction searcher_eoa searcher_contract
        ethereum_swap_info block_timestamp = Except.error e by
      simp only [matchToEthereum, Bind.bind, Except.bind, h2]] at h
    exact absurd h (by simp)
  | ok info =>
    obtain ⟨ethereum_token, sender, amount⟩ := info
    cases h3 : env.getPolygonMappedToken ethereum_token with
    | error e =>
      rw [show matchToEthereum env transaction searcher_eoa
          searcher_contract ethereum_swap_info block_timestamp
          = Except.error e by
        simp only [matchToEthereum, Bind.bind, Except.bind, h2, h3]] at h
      exact absurd h (by simp)
    | ok polygon_token =>
      rw [show matchToEthereum env transaction searcher_eoa
          searcher_contract ethereum_swap_info block_timestamp
          = processCrossChainMevTransactionToEthereum env
            ⟨ethereum_token, transaction.transaction_hash, searcher_eoa,
             searcher_contract, ethereum_swap_info, none⟩ polygon_token
            sender amount block_timestamp by
        simp only [matchToEthereum, Bind.bind, Except.bind, h2, h3]] at h
      obtain ⟨hext, hfail⟩ := processToEthereum_invariant h
      constructor
      · intro e he
        obtain ⟨hleg, hpoly⟩ := hext e he
        exact ⟨by rw [hleg], hpoly⟩
      · intro f hf
        rw [hfail f hf]

theorem processCandidate_invariant {env : MatchEnv} {block_timestamp : ℕ}
    {transaction : Transaction} {r : MatchResult}
    (h : processCandidate env block_timestamp transaction = Except.ok r) :
    (∀ e, r = MatchResult.extraction e →
      e.ethereum_leg.swaps ≠ some ([] : List Swap) ∧
      e.polygon_leg.swaps ≠ some ([] : List Swap)) ∧
    (∀ f, r = MatchResult.failed f →
      f.ethereum_leg.swaps ≠ some ([] : List Swap)) := by
  cases h1 : swapProcessTransaction env.ethereumSwapEnv
      transaction.transaction_hash with
  | error e =>
    rw [show processCandidate env block_timestamp transaction
        = Except.error e by
      simp only [processCandidate, Bind.bind, Except.bind, h1]] at h
    exact absurd h (by simp)
  | ok ethereum_swap_info =>
    have heth := swapProcess_ne_some_nil h1
    cases hpbi : transaction.polygon_bridge_interaction with
    | NONE =>
      rw [show processCandidate env block_timestamp transaction
          = Except.error MatchErr.other by
        simp [processCandidate, Bind.bind, Except.bind, h1, hpbi]] at h
      exact absurd h (by simp)
    | FROM_ETHEREUM =>
      rw [show processCandidate env block_timestamp transaction
          = matchFromEthereum env transaction
            (env.getEthereumTransactionFromAndTo
              transaction.transaction_hash).1
            (env.getEthereumTransactionFromAndTo
              transaction.transaction_hash).2
            ethereum_swap_info block_timestamp by
        simp [processCandidate, Bind.bind, Except.bind, h1, hpbi]] at h
      obtain ⟨hext, hfail⟩ := matchFromEthereum_invariant h
      constructor
      · intro e he
        obtain ⟨hleg, hpoly⟩ := hext e he
        exact ⟨by rw [hleg]; exact heth, hpoly⟩
      · intro f hf
        rw [hfail f hf]
        exact heth
    | TO_ETHEREUM =>
      rw [show processCandidate env block_timestamp transaction
          = matchToEthereum env transaction
            (env.getEthereumTransactionFromAndTo
              transaction.transaction_hash).1
            (env.getEthereumTransactionFromAndTo
              transaction.transaction_hash).2
            ethereum_swap_info block_timestamp by
        simp [processCandidate, Bind.bind, Except.bind, h1, hpbi]] at h
      obtain ⟨hext, hfail⟩ := matchToEthereum_invariant h
      constructor
      · intro e he
        obtain ⟨hleg, hpoly⟩ := hext e he
        exact ⟨by rw [hleg]; exact heth, hpoly⟩
      · intro f hf
        rw [hfail f hf]
        exact heth

/-- C9: every record produced by the batch matcher carries swap lists
that are either `none` or non-empty: the Ethereum leg of successful and
failed extractions holds the processor result directly (which is `none`
for zero decoded swaps, never the empty list), and the Polygon leg's
swap list likewise is `none` or non-empty in every matching path,
including the TO_ETHEREUM plain-transfer path. -/
theorem c9_swap_lists_never_empty (env : MatchEnv)
    (block_to_cross_chain_mev_transactions : List (ℕ × List Transaction)) :
    (∀ e ∈ (matchCrossChainMevTransactions env
        block_to_cross_chain_mev_transactions).1,
      e.ethereum_leg.swaps ≠ some ([] : List Swap) ∧
      e.polygon_leg.swaps ≠ some ([] : List Swap)) ∧
    (∀ f ∈ (matchCrossChainMevTransactions env
        block_to_cross_chain_mev_transactions).2,
      f.ethereum_leg.swaps ≠ some ([] : List Swap)) := by
  rw [matchCrossChain_filterMap]
  constructor
  · intro e he
    simp only [List.mem_flatMap, List.mem_filterMap] at he
    obtain ⟨entry, hentry, t, ht, hmatch⟩ := he
    cases hp : processCandidate env (env.getBlockTimestamp entry.1) t with
    | ok rr =>
      cases rr with
      | extraction e2 =>
        rw [hp] at hmatch
        simp only [Option.some.injEq] at hmatch
        obtain rfl := hmatch
        exact (processCandidate_invariant hp).1 e2 rfl
      | failed f2 =>
        rw [hp] at hmatch
        simp at hmatch
    | error er =>
      rw [hp] at hmatch
      simp at hmatch
  · intro f hf
    simp only [List.mem_flatMap, List.mem_filterMap] at hf
    obtain ⟨entry, hentry, t, ht, hmatch⟩ := hf
    cases hp : processCandidate env (env.getBlockTimestamp entry.1) t with
    | ok rr =>
      cases rr with
      | extraction e2 =>
        rw [hp] at hmatch
        simp at hmatch
      | failed f2 =>
        rw [hp] at hmatch
        simp only [Option.some.injEq] at hmatch
        obtain rfl := hmatch
        exact (processCandidate_invariant hp).2 f2 rfl
    | error er =>
      rw [hp] at hmatch
      simp at hmatch

/-- C9 (witness): the invariant read off the extraction produced by the
full-pipeline fixture environment. -/
theorem c9_swap_lists_never_empty_witness :
    extractionFx.ethereum_leg.swaps ≠ some ([] : List Swap) ∧
    extractionFx.polygon_leg.swaps ≠ some ([] : List Swap) :=
  (c9_swap_lists_never_empty matchEnvPipeline [(1, [candidateFx])]).1
    extractionFx
    (by rw [show matchCrossChainMevTransactions matchEnvPipeline
          [(1, [candidateFx])] = ([extractionFx], []) from rfl]
        exact List.mem_singleton_self _)

/-- C5 (counterexample): in the TO_ETHEREUM direction the code deems the
round trip cyclic when the *starting* Polygon token is a mapped
representation of the *ending* Ethereum token, and it formats the profit
with the ending Ethereum token's symbol and decimals — not the starting
token's, as the claim states.  Here the starting Polygon token is `P`
(symbol `SYM-P`) yet the produced record carries `SYM-E`. -/
theorem c5_counterexample :
    analyzeToEthereumArbitrage arbitrageEnvFx extractionToEthereumFx =
      Except.ok ⟨extractionToEthereumFx.ethereum_leg,
        extractionToEthereumFx.polygon_leg,
        PolygonBridgeInteraction.TO_ETHEREUM, 100, true,
        some "6.0", some "SYM-E"⟩ ∧
    extractionToEthereumFx.polygon_leg.swaps = some [⟨"P", "Q", 4, 6, 1⟩] ∧
    (arbitrageEnvFx.getTokenSymbolAndParsedAmount "P" (10 - 4)).1 = "SYM-P" ∧
    ("SYM-E" : String) ≠ "SYM-P" :=
  ⟨rfl, rfl, rfl, by decide⟩

/-- C5 (amended): with non-empty swap lists on both legs and the token
registry resolving, the analyzers behave as follows.  FROM_ETHEREUM: the
trip is cyclic exactly when the ending Polygon token is among the mapped
representations (registry token plus legacy pinned alternates) of the
starting Ethereum token, and the profit (ending amount − starting
amount) is formatted with the starting Ethereum token's symbol and
decimals.  TO_ETHEREUM: the trip is cyclic exactly when the *starting*
Polygon token is among the mapped representations of the *ending*
Ethereum token, and the profit is formatted with the ending Ethereum
token's symbol and decimals, not the starting token's. -/
theorem c5_cyclic_arbitrage_profit (env : ArbitrageEnv)
    (extraction : CrossChainMevExtraction)
    (ethFirst : Swap) (ethRest : List Swap)
    (polyFirst : Swap) (polyRest : List Swap) (mapped : String)
    (heth : extraction.ethereum_leg.swaps = some (ethFirst :: ethRest))
    (hpoly : extraction.polygon_leg.swaps = some (polyFirst :: polyRest)) :
    (env.getPolygonMappedToken ethFirst.token_in = Except.ok mapped →
      analyzeFromEthereumArbitrage env extraction = Except.ok
        (if ((polyFirst :: polyRest).getLast (by simp)).token_out ∈
            mapped :: ethToPolygonTokenMap ethFirst.token_in then
          ⟨extraction.ethereum_leg, extraction.polygon_leg,
            extraction.direction, extraction.amount_bridged, true,
            some (env.getTokenSymbolAndParsedAmount ethFirst.token_in
              (((polyFirst :: polyRest).getLast (by simp)).amount_out -
                ethFirst.amount_in)).2,
            some (env.getTokenSymbolAndParsedAmount ethFirst.token_in
              (((polyFirst :: polyRest).getLast (by simp)).amount_out -
                ethFirst.amount_in)).1⟩
        else extraction)) ∧
    (env.getPolygonMappedToken
        ((ethFirst :: ethRest).getLast (by simp)).token_out =
          Except.ok mapped →
      analyzeToEthereumArbitrage env extraction = Except.ok
        (if polyFirst.token_in ∈ mapped :: ethToPolygonTokenMap
            ((ethFirst :: ethRest).getLast (by simp)).token_out then
          ⟨extraction.ethereum_leg, extraction.polygon_leg,
            extraction.direction, extraction.amount_bridged, true,
            some (env.getTokenSymbolAndParsedAmount
              ((ethFirst :: ethRest).getLast (by simp)).token_out
              (((ethFirst :: ethRest).getLast (by simp)).amount_out -
                polyFirst.amount_in)).2,
            some (env.getTokenSymbolAndParsedAmount
              ((ethFirst :: ethRest).getLast (by simp)).token_out
              (((ethFirst :: ethRest).getLast (by simp)).amount_out -
                polyFirst.amount_in)).1⟩
        else extraction)) := by
  constructor
  · intro hmap
    simp only [analyzeFromEthereumArbitrage, heth, hpoly, hmap,
      Bind.bind, Except.bind]
    by_cases hmem : ((polyFirst :: polyRest).getLast (by simp)).token_out ∈
        mapped :: ethToPolygonTokenMap ethFirst.token_in
    · rw [if_pos hmem, if_pos hmem]
    · rw [if_neg hmem, if_neg hmem]
  · intro hmap
    simp only [analyzeToEthereumArbitrage, heth, hpoly, hmap,
      Bind.bind, Except.bind]
    by_cases hmem : polyFirst.token_in ∈
        mapped :: ethToPolygonTokenMap
          ((ethFirst :: ethRest).getLast (by simp)).token_out
    · rw [if_pos hmem, if_pos hmem]
    · rw [if_neg hmem, if_neg hmem]

/-- C5 (witness): the amended theorem applied to the TO_ETHEREUM fixture
extraction, whose cyclic result carries the ending Ethereum token's
symbol. -/
theorem c5_cyclic_arbitrage_profit_witness :
    analyzeToEthereumArbitrage arbitrageEnvFx extractionToEthereumFx =
      Except.ok ⟨extractionToEthereumFx.ethereum_leg,
        extractionToEthereumFx.polygon_leg,
        PolygonBridgeInteraction.TO_ETHEREUM, 100, true,
        some "6.0", some "SYM-E"⟩ :=
  (c5_cyclic_arbitrage_profit arbitrageEnvFx extractionToEthereumFx
    ⟨"A", "E", 3, 10, 0⟩ [] ⟨"P", "Q", 4, 6, 1⟩ [] "P" rfl rfl).2 rfl

/-- Splitting an interval filter over a block-number-sorted log list at
a chunk boundary: the logs in `[a, b]` followed by those in `[b', c]`
with `b' = b + 1` are exactly the logs in `[a, c]`. -/
theorem filter_split (allLogs : List TransferLog)
    (hsorted : List.Pairwise
      (fun x y => x.block_number ≤ y.block_number) allLogs) :
    ∀ a b b' c : ℤ, b' = b + 1 → a ≤ b' → b ≤ c →
      (allLogs.filter fun l =>
          decide (a ≤ l.block_number ∧ l.block_number ≤ b)) ++
        (allLogs.filter fun l =>
          decide (b' ≤ l.block_number ∧ l.block_number ≤ c)) =
      allLogs.filter fun l =>
        decide (a ≤ l.block_number ∧ l.block_number ≤ c) := by
  induction allLogs with
  | nil => intro a b b' c hb hab hbc; rfl
  | cons l ls ih =>
    intro a b b' c hb hab hbc
    obtain ⟨hall, htail⟩ := List.pairwise_cons.mp hsorted
    have ihs := ih htail a b b' c hb hab hbc
    simp only [List.filter_cons, decide_eq_true_eq]
    by_cases h1 : a ≤ l.block_number ∧ l.block_number ≤ b
    · have h3 : a ≤ l.block_number ∧ l.block_number ≤ c := ⟨h1.1, by omega⟩
      have h2 : ¬(b' ≤ l.block_number ∧ l.block_number ≤ c) := by omega
      rw [if_pos h1, if_pos h3, if_neg h2, List.cons_append, ihs]
    · by_cases h2 : b' ≤ l.block_number ∧ l.block_number ≤ c
      · have h3 : a ≤ l.block_number ∧ l.block_number ≤ c := ⟨by omega, h2.2⟩
        have hnil : (ls.filter fun x =>
            decide (a ≤ x.block_number ∧ x.block_number ≤ b)) = [] := by
          rw [List.filter_eq_nil_iff]
          intro x hx
          have := hall x hx
          simp only [decide_eq_true_eq]
          omega
        rw [if_neg h1, if_pos h2, if_pos h3, hnil]
        rw [hnil] at ihs
        simp only [List.nil_append] at ihs ⊢
        rw [ihs]
      · have h3 : ¬(a ≤ l.block_number ∧ l.block_number ≤ c) := by omega
        rw [if_neg h1, if_neg h2, if_neg h3, ihs]

/-- Fuel-indexed shape of the fetched chunk list: every chunk is a
non-empty range spanning at most 601 blocks (difference at most 600),
every chunk except the last spans exactly 600 blocks (difference
exactly 599), consecutive chunks are contiguous, the first chunk starts
at the range start and the last ends at the range end. -/
theorem transferLogChunks_shape :
    ∀ n : ℕ, ∀ s t : ℤ, (t - s).toNat ≤ n → s ≤ t →
      (∀ c ∈ transferLogChunks s t, c.1 ≤ c.2 ∧ c.2 - c.1 ≤ 600) ∧
      (∀ c ∈ (transferLogChunks s t).dropLast, c.2 - c.1 = 599) ∧
      List.Chain' (fun c d => d.1 = c.2 + 1) (transferLogChunks s t) ∧
      (transferLogChunks s t).head?.map Prod.fst = some s ∧
      (transferLogChunks s t).getLast?.map Prod.snd = some t := by
  intro n
  induction n with
  | zero =>
    intro s t hfuel hle
    have hstop : ¬s + 600 < t := by omega
    rw [show transferLogChunks s t = [(s, t)] by
      rw [transferLogChunks, getTransferLogsLoop, if_neg hstop]]
    refine ⟨?_, ?_, ?_, rfl, rfl⟩
    · intro c hc
      rw [List.mem_singleton] at hc
      subst hc
      constructor <;> [exact hle; omega]
    · intro c hcm
      simp at hcm
    · exact List.chain'_singleton _
  | succ n ih =>
    intro s t hfuel hle
    by_cases hc : s + 600 < t
    · have hrec := ih (s + 600) t (by omega) (by omega)
      have hstep : transferLogChunks s t =
          (s, s + 600 - 1) :: transferLogChunks (s + 600) t := by
        rw [transferLogChunks, getTransferLogsLoop, if_pos hc]
        rw [List.singleton_append]
        rfl
      obtain ⟨hmem, hdrop, hchain, hhead, hlast⟩ := hrec
      rw [hstep]
      refine ⟨?_, ?_, ?_, rfl, ?_⟩
      · intro c hcm
        rw [List.mem_cons] at hcm
        rcases hcm with hcm | hcm
        · subst hcm; constructor <;> omega
        · exact hmem c hcm
      · intro c hcm
        cases hne2 : transferLogChunks (s + 600) t with
        | nil =>
          rw [hne2] at hhead
          exact absurd hhead (by simp)
        | cons d ds =>
          rw [hne2, List.dropLast_cons₂, List.mem_cons] at hcm
          rcases hcm with hcm | hcm
          · subst hcm
            show s + 600 - 1 - s = 599
            omega
          · refine hdrop c ?_
            rw [hne2]
            exact hcm
      · rw [List.chain'_cons']
        refine ⟨?_, hchain⟩
        intro d hd
        cases hh : (transferLogChunks (s + 600) t).head? with
        | none => rw [hh] at hd; exact absurd hd (by simp)
        | some d0 =>
          rw [hh] at hd
          rw [Option.mem_some_iff] at hd
          subst hd
          rw [hh] at hhead
          simp only [Option.map_some'] at hhead
          have : d0.1 = s + 600 := Option.some.inj hhead
          omega
      · cases hne : transferLogChunks (s + 600) t with
        | nil => rw [hne] at hhead; exact absurd hhead (by simp)
        | cons d ds =>
          rw [hne] at hlast
          rw [List.getLast?_cons_cons, hlast]
    · have hstop := hc
      rw [show transferLogChunks s t = [(s, t)] by
        rw [transferLogChunks, getTransferLogsLoop, if_neg hstop]]
      refine ⟨?_, ?_, ?_, rfl, rfl⟩
      · intro c hcm
        rw [List.mem_singleton] at hcm
        subst hcm
        constructor <;> [exact hle; omega]
      · intro c hcm
        simp at hcm
      · exact List.chain'_singleton _

/-- Fuel-indexed refinement: chunked fetching with an interval filter
over a block-sorted log list yields exactly the single filter over the
whole range. -/
theorem getTransferLogsLoop_filter (allLogs : List TransferLog)
    (hsorted : List.Pairwise
      (fun x y => x.block_number ≤ y.block_number) allLogs) :
    ∀ n : ℕ, ∀ s t : ℤ, (t - s).toNat ≤ n →
      getTransferLogsLoop (fun f g => allLogs.filter fun l =>
          decide (f ≤ l.block_number ∧ l.block_number ≤ g)) s t =
        allLogs.filter fun l =>
          decide (s ≤ l.block_number ∧ l.block_number ≤ t) := by
  intro n
  induction n with
  | zero =>
    intro s t hfuel
    have hstop : ¬s + 600 < t := by omega
    rw [getTransferLogsLoop, if_neg hstop]
  | succ n ih =>
    intro s t hfuel
    by_cases hc : s + 600 < t
    · rw [getTransferLogsLoop, if_pos hc]
      rw [ih (s + 600) t (by omega)]
      exact filter_split allLogs hsorted s (s + 600 - 1) (s + 600) t
        (by omega) (by omega) (by omega)
    · rw [getTransferLogsLoop, if_neg hc]

/-- C10 (counterexample): on the range `[0, 600]` the loop performs a
single fetch covering 601 blocks, exceeding the claimed 600-block chunk
bound. -/
theorem c10_counterexample :
    transferLogChunks 0 600 = [(0, 600)] ∧
    (600 : ℤ) - 0 + 1 = 601 := by
  constructor
  · rw [transferLogChunks, getTransferLogsLoop, if_neg (by norm_num)]
  · norm_num

/-- C10 (amended): for `from_block ≤ to_block` the loop fetches
consecutive contiguous chunks — interior chunks span exactly 600 blocks
and the final chunk up to 601 (block-number difference at most 600) —
starting at `from_block` and ending at `to_block`, with no gap and no
overlap; consequently, over a block-sorted log source the concatenated
result equals a single filter of the whole range. -/
theorem c10_chunked_fetch (from_block to_block : ℤ)
    (allLogs : List TransferLog)
    (hsorted : List.Pairwise
      (fun x y => x.block_number ≤ y.block_number) allLogs)
    (hle : from_block ≤ to_block) :
    (∀ c ∈ transferLogChunks from_block to_block,
      c.1 ≤ c.2 ∧ c.2 - c.1 ≤ 600) ∧
    (∀ c ∈ (transferLogChunks from_block to_block).dropLast,
      c.2 - c.1 = 599) ∧
    List.Chain' (fun c d => d.1 = c.2 + 1)
      (transferLogChunks from_block to_block) ∧
    (transferLogChunks from_block to_block).head?.map Prod.fst =
      some from_block ∧
    (transferLogChunks from_block to_block).getLast?.map Prod.snd =
      some to_block ∧
    polygonGetTransferLogs (fun f g => allLogs.filter fun l =>
        decide (f ≤ l.block_number ∧ l.block_number ≤ g))
      from_block to_block =
      allLogs.filter fun l =>
        decide (from_block ≤ l.block_number ∧ l.block_number ≤ to_block) := by
  obtain ⟨h1, h1b, h2, h3, h4⟩ := transferLogChunks_shape
    (to_block - from_block).toNat from_block to_block le_rfl hle
  exact ⟨h1, h1b, h2, h3, h4, getTransferLogsLoop_filter allLogs hsorted
    (to_block - from_block).toNat from_block to_block le_rfl⟩

/-- C10 (witness): the amended theorem at the single-chunk range
`[0, 600]` over the empty log source. -/
theorem c10_chunked_fetch_witness :
    (∀ c ∈ transferLogChunks 0 600, c.1 ≤ c.2 ∧ c.2 - c.1 ≤ 600) ∧
    (∀ c ∈ (transferLogChunks 0 600).dropLast, c.2 - c.1 = 599) ∧
    List.Chain' (fun c d => d.1 = c.2 + 1) (transferLogChunks 0 600) ∧
    (transferLogChunks 0 600).head?.map Prod.fst = some 0 ∧
    (transferLogChunks 0 600).getLast?.map Prod.snd = some 600 ∧
    polygonGetTransferLogs (fun f g => List.filter (fun l =>
        decide (f ≤ l.block_number ∧ l.block_number ≤ g)) []) 0 600 =
      List.filter (fun l =>
        decide ((0 : ℤ) ≤ l.block_number ∧ l.block_number ≤ 600)) [] :=
  c10_chunked_fetch 0 600 [] List.Pairwise.nil (by decide)
